import Mathlib

set_option linter.unusedVariables false
set_option linter.unreachableTactic false
set_option linter.unusedTactic false

/-!
Shallow embedding of the math2 expression editor (math2.h / math2.c).

The C node pool is an array of 256 `expr_node` slots addressed by raw
pointers; here pointers become `Option Nat` indices and the pool becomes a
total function `Nat → expr_node` (only indices below `MAX_NODES` are ever
handed out by the allocator, mirroring the fixed-capacity array).  Each C
function is translated statement by statement; recursive C functions take an
explicit fuel argument and are written as structural recursion on the fuel so
that concrete states evaluate inside the kernel.
-/

/-- Pool capacity, MAX_NODES in math2.h. -/
def MAX_NODES : Nat := 256

/-- LaTeX output buffer size, MAX_LATEX in math2.h. -/
def MAX_LATEX : Nat := 1024

/-- Number of bracket-nesting palette entries, NUM_PAREN_COLORS in math2.c. -/
def NUM_PAREN_COLORS : Nat := 5

/-- node_type_t from math2.h. -/
inductive node_type_t where
  | NODE_EMPTY
  | NODE_SEQUENCE
  | NODE_TEXT
  | NODE_FRACTION
  | NODE_EXPONENT
  | NODE_SUBSCRIPT
  | NODE_ROOT
  | NODE_NTHROOT
  | NODE_ABS
  | NODE_PAREN
  | NODE_FUNCTION
  | NODE_MIXED_FRAC
deriving DecidableEq, Repr

/-- text_type_t from math2.h. -/
inductive text_type_t where
  | TEXT_NUMBER
  | TEXT_VARIABLE
  | TEXT_OPERATOR
  | TEXT_PI
  | TEXT_PAREN_OPEN
  | TEXT_PAREN_CLOSE
deriving DecidableEq, Repr

/-- The per-kind union `data` of expr_node (math2.h).  Child pointers become
`Option Nat` pool indices. -/
inductive node_data where
  | seq (first last : Option Nat)
  | text (subtype : text_type_t) (text : String)
  | frac (numer denom : Option Nat)
  | exp (base power : Option Nat)
  | subscript (base sub : Option Nat)
  | root (index : Int) (content : Option Nat)
  | nthroot (index content : Option Nat)
  | mixed (whole numer denom : Option Nat)
  | abs (content : Option Nat)
  | paren (content : Option Nat)
  | func (name : String) (arg : Option Nat)
deriving DecidableEq, Repr

/-- struct expr_node from math2.h. -/
structure expr_node where
  type : node_type_t
  parent : Option Nat
  next : Option Nat
  prev : Option Nat
  data : node_data
deriving DecidableEq, Repr

/-- The all-zero node produced by `memset`: EMPTY type, null links; the zeroed
union read through the `seq` view is first = last = NULL. -/
def empty_node : expr_node :=
  { type := .NODE_EMPTY, parent := none, next := none, prev := none,
    data := .seq none none }

instance : Inhabited expr_node := ⟨empty_node⟩

/-- cursor_t from math2.h. -/
structure cursor_t where
  sequence : Option Nat
  after : Option Nat
deriving DecidableEq, Repr

/-- math_expr2_t from math2.h.  `nodes` is the pool (total over `Nat`; the
allocator only returns indices `< MAX_NODES`). -/
structure math_expr2 where
  nodes : Nat → expr_node
  next_free : Nat
  root : Option Nat
  cursor : cursor_t
  latex : String
  shift_mode : Bool
  alpha_mode : Bool

/-- Read a pool slot. -/
def getNode (e : math_expr2) (i : Nat) : expr_node := e.nodes i

/-- Read through a nullable pointer; dereferencing NULL never happens on the
paths the code guards, and yields the inert `empty_node` here. -/
def getPtr (e : math_expr2) (p : Option Nat) : expr_node :=
  match p with
  | some i => getNode e i
  | none => empty_node

/-- Overwrite a pool slot. -/
def setNode (e : math_expr2) (i : Nat) (n : expr_node) : math_expr2 :=
  { e with nodes := fun j => if j = i then n else e.nodes j }

/-- Update a pool slot in place (one C field assignment through a pointer). -/
def updNode (e : math_expr2) (i : Nat) (f : expr_node → expr_node) : math_expr2 :=
  setNode e i (f (getNode e i))

/-- Update through a nullable pointer. -/
def updPtr (e : math_expr2) (p : Option Nat) (f : expr_node → expr_node) : math_expr2 :=
  match p with
  | some i => updNode e i f
  | none => e

/-- Read `node->data.seq.first`. -/
def seq_first (n : expr_node) : Option Nat :=
  match n.data with
  | .seq f _ => f
  | _ => none

/-- Read `node->data.seq.last`. -/
def seq_last (n : expr_node) : Option Nat :=
  match n.data with
  | .seq _ l => l
  | _ => none

/-- Write `node->data.seq.first`. -/
def with_seq_first (v : Option Nat) (n : expr_node) : expr_node :=
  match n.data with
  | .seq _ l => { n with data := .seq v l }
  | _ => n

/-- Write `node->data.seq.last`. -/
def with_seq_last (v : Option Nat) (n : expr_node) : expr_node :=
  match n.data with
  | .seq f _ => { n with data := .seq f v }
  | _ => n

/-- Read `node->data.frac.numer`. -/
def frac_numer (n : expr_node) : Option Nat :=
  match n.data with
  | .frac nu _ => nu
  | _ => none

/-- Read `node->data.frac.denom`. -/
def frac_denom (n : expr_node) : Option Nat :=
  match n.data with
  | .frac _ de => de
  | _ => none

/-- Write `node->data.frac.numer`. -/
def with_frac_numer (v : Option Nat) (n : expr_node) : expr_node :=
  match n.data with
  | .frac _ de => { n with data := .frac v de }
  | _ => n

/-- Write `node->data.frac.denom`. -/
def with_frac_denom (v : Option Nat) (n : expr_node) : expr_node :=
  match n.data with
  | .frac nu _ => { n with data := .frac nu v }
  | _ => n

/-- Read `node->data.exp.base`. -/
def exp_base (n : expr_node) : Option Nat :=
  match n.data with
  | .exp b _ => b
  | _ => none

/-- Read `node->data.exp.power`. -/
def exp_power (n : expr_node) : Option Nat :=
  match n.data with
  | .exp _ p => p
  | _ => none

/-- Write `node->data.exp.base`. -/
def with_exp_base (v : Option Nat) (n : expr_node) : expr_node :=
  match n.data with
  | .exp _ p => { n with data := .exp v p }
  | _ => n

/-- Write `node->data.exp.power`. -/
def with_exp_power (v : Option Nat) (n : expr_node) : expr_node :=
  match n.data with
  | .exp b _ => { n with data := .exp b v }
  | _ => n

/-- Read `node->data.subscript.base`. -/
def subscript_base (n : expr_node) : Option Nat :=
  match n.data with
  | .subscript b _ => b
  | _ => none

/-- Read `node->data.subscript.sub`. -/
def subscript_sub (n : expr_node) : Option Nat :=
  match n.data with
  | .subscript _ s => s
  | _ => none

/-- Write `node->data.subscript.base`. -/
def with_sub_base (v : Option Nat) (n : expr_node) : expr_node :=
  match n.data with
  | .subscript _ s => { n with data := .subscript v s }
  | _ => n

/-- Write `node->data.subscript.sub`. -/
def with_sub_sub (v : Option Nat) (n : expr_node) : expr_node :=
  match n.data with
  | .subscript b _ => { n with data := .subscript b v }
  | _ => n

/-- Write `node->data.root.index`. -/
def with_root_index (v : Int) (n : expr_node) : expr_node :=
  match n.data with
  | .root _ c => { n with data := .root v c }
  | _ => n

/-- Write `node->data.root.content`. -/
def with_root_content (v : Option Nat) (n : expr_node) : expr_node :=
  match n.data with
  | .root ix _ => { n with data := .root ix v }
  | _ => n

/-- Write `node->data.nthroot.index`. -/
def with_nthroot_index (v : Option Nat) (n : expr_node) : expr_node :=
  match n.data with
  | .nthroot _ c => { n with data := .nthroot v c }
  | _ => n

/-- Write `node->data.nthroot.content`. -/
def with_nthroot_content (v : Option Nat) (n : expr_node) : expr_node :=
  match n.data with
  | .nthroot ix _ => { n with data := .nthroot ix v }
  | _ => n

/-- Write `node->data.mixed.whole`. -/
def with_mixed_whole (v : Option Nat) (n : expr_node) : expr_node :=
  match n.data with
  | .mixed _ nu de => { n with data := .mixed v nu de }
  | _ => n

/-- Write `node->data.mixed.numer`. -/
def with_mixed_numer (v : Option Nat) (n : expr_node) : expr_node :=
  match n.data with
  | .mixed w _ de => { n with data := .mixed w v de }
  | _ => n

/-- Write `node->data.mixed.denom`. -/
def with_mixed_denom (v : Option Nat) (n : expr_node) : expr_node :=
  match n.data with
  | .mixed w nu _ => { n with data := .mixed w nu v }
  | _ => n

/-- Write `node->data.abs.content`. -/
def with_abs_content (v : Option Nat) (n : expr_node) : expr_node :=
  match n.data with
  | .abs _ => { n with data := .abs v }
  | _ => n

/-- Write `node->data.paren.content`. -/
def with_paren_content (v : Option Nat) (n : expr_node) : expr_node :=
  match n.data with
  | .paren _ => { n with data := .paren v }
  | _ => n

/-- Write `node->data.func.name`. -/
def with_func_name (v : String) (n : expr_node) : expr_node :=
  match n.data with
  | .func _ a => { n with data := .func v a }
  | _ => n

/-- Write `node->data.func.arg`. -/
def with_func_arg (v : Option Nat) (n : expr_node) : expr_node :=
  match n.data with
  | .func nm _ => { n with data := .func nm v }
  | _ => n

/-- Read `node->data.root.content`. -/
def root_content (n : expr_node) : Option Nat :=
  match n.data with
  | .root _ c => c
  | _ => none

/-- Read `node->data.nthroot.index`. -/
def nthroot_index (n : expr_node) : Option Nat :=
  match n.data with
  | .nthroot i _ => i
  | _ => none

/-- Read `node->data.nthroot.content`. -/
def nthroot_content (n : expr_node) : Option Nat :=
  match n.data with
  | .nthroot _ c => c
  | _ => none

/-- Read `node->data.mixed.whole`. -/
def mixed_whole (n : expr_node) : Option Nat :=
  match n.data with
  | .mixed w _ _ => w
  | _ => none

/-- Read `node->data.mixed.numer`. -/
def mixed_numer (n : expr_node) : Option Nat :=
  match n.data with
  | .mixed _ nu _ => nu
  | _ => none

/-- Read `node->data.mixed.denom`. -/
def mixed_denom (n : expr_node) : Option Nat :=
  match n.data with
  | .mixed _ _ de => de
  | _ => none

/-- Read `node->data.abs.content`. -/
def abs_content (n : expr_node) : Option Nat :=
  match n.data with
  | .abs c => c
  | _ => none

/-- Read `node->data.paren.content`. -/
def paren_content (n : expr_node) : Option Nat :=
  match n.data with
  | .paren c => c
  | _ => none

/-- Read `node->data.func.name`. -/
def func_name (n : expr_node) : String :=
  match n.data with
  | .func nm _ => nm
  | _ => ""

/-- Read `node->data.func.arg`. -/
def func_arg (n : expr_node) : Option Nat :=
  match n.data with
  | .func _ a => a
  | _ => none

/-- The zero-filled union left by `memset` in math2_alloc_node, read through
the variant selected by the requested node type (all pointers NULL, numeric
fields 0, strings empty). -/
def zero_data : node_type_t → node_data
  | .NODE_EMPTY => .seq none none
  | .NODE_SEQUENCE => .seq none none
  | .NODE_TEXT => .text .TEXT_NUMBER ""
  | .NODE_FRACTION => .frac none none
  | .NODE_EXPONENT => .exp none none
  | .NODE_SUBSCRIPT => .subscript none none
  | .NODE_ROOT => .root 0 none
  | .NODE_NTHROOT => .nthroot none none
  | .NODE_ABS => .abs none
  | .NODE_PAREN => .paren none
  | .NODE_FUNCTION => .func "" none
  | .NODE_MIXED_FRAC => .mixed none none none

/-- The `for(i..)` scan of math2_alloc_node: probe `(next_free + i) % MAX_NODES`
for `i = 0, 1, ...` while `remaining` probes are left, returning the first
Empty slot. -/
def scan_from (e : math_expr2) (i : Nat) : Nat → Option Nat
  | 0 => none
  | r + 1 =>
    let idx := (e.next_free + i) % MAX_NODES
    if (getNode e idx).type = .NODE_EMPTY then some idx
    else scan_from e (i + 1) r

/-- math2_alloc_node: round-robin scan from `next_free` for an Empty slot;
on success the slot is zeroed, given the requested type, and `next_free` is
advanced past it; on exhaustion the state is untouched and NULL is returned. -/
def math2_alloc_node (e : math_expr2) (ty : node_type_t) : math_expr2 × Option Nat :=
  match scan_from e 0 MAX_NODES with
  | none => (e, none)
  | some idx =>
    let node : expr_node :=
      { type := ty, parent := none, next := none, prev := none, data := zero_data ty }
    ({ setNode e idx node with next_free := (idx + 1) % MAX_NODES }, some idx)

/-- math2_new_sequence: allocate a NODE_SEQUENCE and null its first/last. -/
def math2_new_sequence (e : math_expr2) : math_expr2 × Option Nat :=
  let (e1, p) := math2_alloc_node e .NODE_SEQUENCE
  match p with
  | some s => (updNode e1 s (fun n => { n with data := .seq none none }), some s)
  | none => (e1, none)

/-- Call tags for the mutually recursive math2_free_node: `nodep` frees one
node (and its descendants), `chain` is the sibling walk inside the
NODE_SEQUENCE case. -/
inductive fcall where
  | nodep (p : Option Nat)
  | chain (p : Option Nat)

/-- math2_free_node together with its NODE_SEQUENCE child walk, merged into a
single structural recursion on fuel.  A null or already-Empty node is a no-op;
otherwise children are freed recursively (reading `child->next` before the
child is freed) and finally the node's own type is set to NODE_EMPTY, leaving
every other field stale exactly as the C code does. -/
def free_go : Nat → fcall → math_expr2 → math_expr2
  | 0, _, e => e
  | _ + 1, .nodep none, e => e
  | fuel + 1, .nodep (some i), e =>
    let n := getNode e i
    if n.type = .NODE_EMPTY then e
    else
      let e1 :=
        match n.type with
        | .NODE_SEQUENCE => free_go fuel (.chain (seq_first n)) e
        | .NODE_FRACTION =>
          free_go fuel (.nodep (frac_denom n)) (free_go fuel (.nodep (frac_numer n)) e)
        | .NODE_EXPONENT =>
          free_go fuel (.nodep (exp_power n)) (free_go fuel (.nodep (exp_base n)) e)
        | .NODE_SUBSCRIPT =>
          free_go fuel (.nodep (subscript_sub n)) (free_go fuel (.nodep (subscript_base n)) e)
        | .NODE_ROOT => free_go fuel (.nodep (root_content n)) e
        | .NODE_NTHROOT =>
          free_go fuel (.nodep (nthroot_content n)) (free_go fuel (.nodep (nthroot_index n)) e)
        | .NODE_ABS => free_go fuel (.nodep (abs_content n)) e
        | .NODE_PAREN => free_go fuel (.nodep (paren_content n)) e
        | .NODE_FUNCTION => free_go fuel (.nodep (func_arg n)) e
        | .NODE_MIXED_FRAC =>
          free_go fuel (.nodep (mixed_denom n))
            (free_go fuel (.nodep (mixed_numer n)) (free_go fuel (.nodep (mixed_whole n)) e))
        | _ => e
      updNode e1 i (fun m => { m with type := .NODE_EMPTY })
  | _ + 1, .chain none, e => e
  | fuel + 1, .chain (some c), e =>
    let next := (getNode e c).next
    free_go fuel (.chain next) (free_go fuel (.nodep (some c)) e)

/-- math2_free_node entry point. -/
def math2_free_node (fuel : Nat) (e : math_expr2) (p : Option Nat) : math_expr2 :=
  free_go fuel (.nodep p) e

/-- seq_insert_after from math2.c: splice `node` into `seq` right after
`after` (NULL `after` = at the front), in the C statement order. -/
def seq_insert_after (e : math_expr2) (seqP afterP nodeP : Option Nat) : math_expr2 :=
  match seqP, nodeP with
  | some s, some nd =>
    if (getNode e s).type ≠ .NODE_SEQUENCE then e
    else
      let e := updNode e nd (fun n => { n with parent := some s })
      match afterP with
      | none =>
        let first0 := seq_first (getNode e s)
        let e := updNode e nd (fun n => { n with prev := none, next := first0 })
        let e :=
          match first0 with
          | some f => updNode e f (fun n => { n with prev := some nd })
          | none => e
        let e := updNode e s (with_seq_first (some nd))
        if seq_last (getNode e s) = none then updNode e s (with_seq_last (some nd)) else e
      | some a =>
        let anext := (getNode e a).next
        let e := updNode e nd (fun n => { n with prev := some a, next := anext })
        let e :=
          match anext with
          | some nx => updNode e nx (fun n => { n with prev := some nd })
          | none => e
        let e := updNode e a (fun n => { n with next := some nd })
        if seq_last (getNode e s) = some a then updNode e s (with_seq_last (some nd)) else e
  | _, _ => e

/-- seq_remove from math2.c: unlink `node` from its owning sequence, patch the
neighbours and first/last, then clear the node's own parent/prev/next. -/
def seq_remove (e : math_expr2) (nodeP : Option Nat) : math_expr2 :=
  match nodeP with
  | none => e
  | some nd =>
    match (getNode e nd).parent with
    | none => e
    | some s =>
      if (getNode e s).type ≠ .NODE_SEQUENCE then e
      else
        let ndPrev := (getNode e nd).prev
        let ndNext := (getNode e nd).next
        let e :=
          match ndPrev with
          | some p => updNode e p (fun n => { n with next := ndNext })
          | none => updNode e s (with_seq_first ndNext)
        let e :=
          match ndNext with
          | some nx => updNode e nx (fun n => { n with prev := ndPrev })
          | none => updNode e s (with_seq_last ndPrev)
        updNode e nd (fun n => { n with parent := none, prev := none, next := none })

/-- seq_is_empty from math2.c. -/
def seq_is_empty (e : math_expr2) (p : Option Nat) : Bool :=
  match p with
  | some s => (getNode e s).type = .NODE_SEQUENCE ∧ seq_first (getNode e s) = none
  | none => false

/-- Slot-lookup table `get_last_slot` from math2.c (last editable child slot,
used when entering from the right). -/
def get_last_slot (n : expr_node) : Option Nat :=
  match n.type with
  | .NODE_FRACTION => frac_denom n
  | .NODE_EXPONENT => exp_power n
  | .NODE_SUBSCRIPT => subscript_sub n
  | .NODE_ROOT => root_content n
  | .NODE_NTHROOT => nthroot_content n
  | .NODE_ABS => abs_content n
  | .NODE_PAREN => paren_content n
  | .NODE_FUNCTION => func_arg n
  | .NODE_MIXED_FRAC => mixed_denom n
  | _ => none

/-- Slot-lookup table `get_first_slot` from math2.c. -/
def get_first_slot (n : expr_node) : Option Nat :=
  match n.type with
  | .NODE_FRACTION => frac_numer n
  | .NODE_EXPONENT => exp_base n
  | .NODE_SUBSCRIPT => subscript_base n
  | .NODE_ROOT => root_content n
  | .NODE_NTHROOT => nthroot_index n
  | .NODE_ABS => abs_content n
  | .NODE_PAREN => paren_content n
  | .NODE_FUNCTION => func_arg n
  | .NODE_MIXED_FRAC => mixed_whole n
  | _ => none

/-- cursor_left from math2.c: step to the previous sibling, or fail at the
start of the sequence. -/
def cursor_left (e : math_expr2) : math_expr2 × Bool :=
  match e.cursor.after with
  | some a =>
    ({ e with cursor := { e.cursor with after := (getNode e a).prev } }, true)
  | none => (e, false)

/-- The `next` candidate computed at the top of cursor_right. -/
def cursor_right_target (e : math_expr2) : Option Nat :=
  match e.cursor.after with
  | some a => (getNode e a).next
  | none => seq_first (getPtr e e.cursor.sequence)

/-- cursor_right from math2.c: step to the next sibling, or fail at the end
of the sequence. -/
def cursor_right (e : math_expr2) : math_expr2 × Bool :=
  match cursor_right_target e with
  | some nx => ({ e with cursor := { e.cursor with after := some nx } }, true)
  | none => (e, false)

/-- cursor_enter_right from math2.c: enter the first slot of the node just
ahead of the cursor, at its start. -/
def cursor_enter_right (e : math_expr2) : math_expr2 × Bool :=
  let target :=
    match e.cursor.after with
    | some a => (getNode e a).next
    | none => seq_first (getPtr e e.cursor.sequence)
  match target with
  | none => (e, false)
  | some t =>
    match get_first_slot (getNode e t) with
    | some sl =>
      if (getNode e sl).type = .NODE_SEQUENCE then
        ({ e with cursor := { sequence := some sl, after := none } }, true)
      else (e, false)
    | none => (e, false)

/-- cursor_enter_left from math2.c: enter the last slot of the node just
ahead of the cursor (the one just stepped over), at its end. -/
def cursor_enter_left (e : math_expr2) : math_expr2 × Bool :=
  let target :=
    match e.cursor.after with
    | some a => (getNode e a).next
    | none => seq_first (getPtr e e.cursor.sequence)
  match target with
  | none => (e, false)
  | some t =>
    match get_last_slot (getNode e t) with
    | some sl =>
      if (getNode e sl).type = .NODE_SEQUENCE then
        ({ e with cursor := { sequence := some sl, after := seq_last (getNode e sl) } }, true)
      else (e, false)
    | none => (e, false)

/-- cursor_enter from math2.c: enter the first slot of the node the cursor is
after (or the first node when at the start), at that slot's end. -/
def cursor_enter (e : math_expr2) : math_expr2 × Bool :=
  let target :=
    match e.cursor.after with
    | some a => some a
    | none => seq_first (getPtr e e.cursor.sequence)
  match target with
  | none => (e, false)
  | some t =>
    match get_first_slot (getNode e t) with
    | some sl =>
      if (getNode e sl).type = .NODE_SEQUENCE then
        ({ e with cursor := { sequence := some sl, after := seq_last (getNode e sl) } }, true)
      else (e, false)
    | none => (e, false)

/-- cursor_exit_right from math2.c: step out of the current slot, landing
after the owning container; fails at the tree root. -/
def cursor_exit_right (e : math_expr2) : math_expr2 × Bool :=
  match (getPtr e e.cursor.sequence).parent with
  | none => (e, false)
  | some container =>
    match (getNode e container).parent with
    | some gp =>
      if (getNode e gp).type = .NODE_SEQUENCE then
        ({ e with cursor := { sequence := some gp, after := some container } }, true)
      else (e, false)
    | none => (e, false)

/-- cursor_exit_left from math2.c: step out of the current slot, landing
before the owning container. -/
def cursor_exit_left (e : math_expr2) : math_expr2 × Bool :=
  match (getPtr e e.cursor.sequence).parent with
  | none => (e, false)
  | some container =>
    match (getNode e container).parent with
    | some gp =>
      if (getNode e gp).type = .NODE_SEQUENCE then
        ({ e with cursor := { sequence := some gp, after := (getNode e container).prev } }, true)
      else (e, false)
    | none => (e, false)

/-- cursor_exit from math2.c: same landing as cursor_exit_right. -/
def cursor_exit (e : math_expr2) : math_expr2 × Bool :=
  match (getPtr e e.cursor.sequence).parent with
  | none => (e, false)
  | some container =>
    match (getNode e container).parent with
    | some gp =>
      if (getNode e gp).type = .NODE_SEQUENCE then
        ({ e with cursor := { sequence := some gp, after := some container } }, true)
      else (e, false)
    | none => (e, false)

/-- Slot-adjacency table `get_next_slot` from math2.c. -/
def get_next_slot (container : expr_node) (current : Nat) : Option Nat :=
  match container.type with
  | .NODE_FRACTION =>
    if frac_numer container = some current then frac_denom container else none
  | .NODE_EXPONENT =>
    if exp_base container = some current then exp_power container else none
  | .NODE_SUBSCRIPT =>
    if subscript_base container = some current then subscript_sub container else none
  | .NODE_NTHROOT =>
    if nthroot_index container = some current then nthroot_content container else none
  | .NODE_MIXED_FRAC =>
    if mixed_whole container = some current then mixed_numer container
    else if mixed_numer container = some current then mixed_denom container
    else none
  | _ => none

/-- Slot-adjacency table `get_prev_slot` from math2.c. -/
def get_prev_slot (container : expr_node) (current : Nat) : Option Nat :=
  match container.type with
  | .NODE_FRACTION =>
    if frac_denom container = some current then frac_numer container else none
  | .NODE_EXPONENT =>
    if exp_power container = some current then exp_base container else none
  | .NODE_SUBSCRIPT =>
    if subscript_sub container = some current then subscript_base container else none
  | .NODE_NTHROOT =>
    if nthroot_content container = some current then nthroot_index container else none
  | .NODE_MIXED_FRAC =>
    if mixed_denom container = some current then mixed_numer container
    else if mixed_numer container = some current then mixed_whole container
    else none
  | _ => none

/-- cursor_next_slot from math2.c: move to the next sibling slot of the same
container, at its start. -/
def cursor_next_slot (e : math_expr2) : math_expr2 × Bool :=
  match e.cursor.sequence with
  | none => (e, false)
  | some s =>
    match (getNode e s).parent with
    | none => (e, false)
    | some container =>
      match get_next_slot (getNode e container) s with
      | some nx =>
        if (getNode e nx).type = .NODE_SEQUENCE then
          ({ e with cursor := { sequence := some nx, after := none } }, true)
        else (e, false)
      | none => (e, false)

/-- cursor_prev_slot from math2.c: move to the previous sibling slot of the
same container, at its end. -/
def cursor_prev_slot (e : math_expr2) : math_expr2 × Bool :=
  match e.cursor.sequence with
  | none => (e, false)
  | some s =>
    match (getNode e s).parent with
    | none => (e, false)
    | some container =>
      match get_prev_slot (getNode e container) s with
      | some pv =>
        if (getNode e pv).type = .NODE_SEQUENCE then
          ({ e with cursor := { sequence := some pv, after := seq_last (getNode e pv) } }, true)
        else (e, false)
      | none => (e, false)

/-- math2_clear_modes from math2.c. -/
def math2_clear_modes (e : math_expr2) : math_expr2 :=
  { e with shift_mode := false, alpha_mode := false }

/-- math2_init from math2.c: zero the pool (every slot Empty), allocate the
root sequence, and put the cursor at its start. -/
def math2_init : math_expr2 :=
  let e0 : math_expr2 :=
    { nodes := fun _ => empty_node, next_free := 0, root := none,
      cursor := { sequence := none, after := none }, latex := "",
      shift_mode := false, alpha_mode := false }
  let (e1, rootP) := math2_new_sequence e0
  { e1 with root := rootP, cursor := { sequence := rootP, after := none } }

/-- math2_insert_text from math2.c: allocate a TEXT node (silently no-op on
exhaustion), copy at most 15 characters of the text (`strncpy` into the
16-byte zeroed buffer), splice at the cursor, advance the cursor past it,
clear the modes. -/
def math2_insert_text (e : math_expr2) (subtype : text_type_t) (text : String) : math_expr2 :=
  let (e1, nodeP) := math2_alloc_node e .NODE_TEXT
  match nodeP with
  | none => e1
  | some nd =>
    let e2 := updNode e1 nd (fun n => { n with data := .text subtype (text.take 15) })
    let e3 := seq_insert_after e2 e2.cursor.sequence e2.cursor.after (some nd)
    let e4 := { e3 with cursor := { e3.cursor with after := some nd } }
    math2_clear_modes e4

/-- The IS_OPERATOR macro of math2_insert_fraction. -/
def is_operator_node (n : expr_node) : Bool :=
  n.type = .NODE_TEXT &&
    match n.data with
    | .text st _ => st = .TEXT_OPERATOR
    | _ => false

/-- Node kinds math2_insert_fraction admits into the collected numerator run. -/
def frac_collectible (ty : node_type_t) : Bool :=
  ty = .NODE_TEXT ∨ ty = .NODE_EXPONENT ∨ ty = .NODE_SUBSCRIPT ∨ ty = .NODE_PAREN ∨
    ty = .NODE_FRACTION ∨ ty = .NODE_ROOT ∨ ty = .NODE_ABS

/-- The backward `while(collect_start)` scan of math2_insert_fraction.  Fuel
bounds the walk (any acyclic prev-chain in the 256-slot pool is shorter than
`MAX_NODES`; the C loop would not terminate on a cyclic chain). -/
def collect_scan (e : math_expr2) : Option Nat → Nat → Option Nat
  | cs, 0 => cs
  | none, _ => none
  | some c, fuel + 1 =>
    if is_operator_node (getNode e c) then (getNode e c).next
    else
      match (getNode e c).prev with
      | none => some c
      | some p =>
        if is_operator_node (getNode e p) then some c
        else if frac_collectible (getNode e p).type then collect_scan e (some p) fuel
        else some c

/-- The `while(node)` move loop of math2_insert_fraction: walk forward from
`collect_start`, unlinking each node and appending it to the numerator, until
the node that was `collect_end` has been moved. -/
def collect_move (numer ce : Nat) : math_expr2 → Option Nat → Option Nat → Nat → math_expr2
  | e, _, _, 0 => e
  | e, none, _, _ => e
  | e, some nd, lastIns, fuel + 1 =>
    let next := (getNode e nd).next
    let isLast := nd = ce
    let e := seq_remove e (some nd)
    let e := seq_insert_after e (some numer) lastIns (some nd)
    if isLast then e else collect_move numer ce e next (some nd) fuel

/-- math2_insert_fraction from math2.c: allocate the fraction and its two
slot sequences (silently bailing out if any allocation fails), collect prior
siblings into the numerator via the backward scan, splice the fraction at the
cursor, and move the cursor into the numerator slot when nothing was
collected, otherwise into the denominator slot. -/
def math2_insert_fraction (e0 : math_expr2) : math_expr2 :=
  let (e1, fracP) := math2_alloc_node e0 .NODE_FRACTION
  match fracP with
  | none => e1
  | some frac =>
    let (e2, numerP) := math2_new_sequence e1
    let e2b := updNode e2 frac (with_frac_numer numerP)
    let (e3, denomP) := math2_new_sequence e2b
    let e3b := updNode e3 frac (with_frac_denom denomP)
    match numerP, denomP with
    | some numer, some denom =>
      let e4 := updNode e3b numer (fun n => { n with parent := some frac })
      let e5 := updNode e4 denom (fun n => { n with parent := some frac })
      let collectEnd := e5.cursor.after
      let collectStart := collect_scan e5 collectEnd MAX_NODES
      let e6 :=
        match collectStart, collectEnd with
        | some cs, some ce =>
          let ea := { e5 with cursor := { e5.cursor with after := (getNode e5 cs).prev } }
          collect_move numer ce ea (some cs) none MAX_NODES
        | _, _ => e5
      let e7 := seq_insert_after e6 e6.cursor.sequence e6.cursor.after (some frac)
      let e8 :=
        if seq_is_empty e7 (frac_numer (getNode e7 frac)) then
          { e7 with cursor := { sequence := frac_numer (getNode e7 frac), after := none } }
        else
          { e7 with cursor := { sequence := frac_denom (getNode e7 frac), after := none } }
      math2_clear_modes e8
    | _, _ => e3b

/-- Node kinds math2_insert_exponent collects as base. -/
def exp_collectible (ty : node_type_t) : Bool :=
  ty = .NODE_TEXT ∨ ty = .NODE_FRACTION ∨ ty = .NODE_PAREN ∨ ty = .NODE_EXPONENT ∨
    ty = .NODE_ROOT

/-- math2_insert_exponent from math2.c: allocate the exponent and its base
and power sequences (silent no-op on exhaustion), absorb at most the single
immediately preceding sibling as base when its kind allows, splice at the
cursor, and move the cursor to the start of the power slot. -/
def math2_insert_exponent (e0 : math_expr2) : math_expr2 :=
  let (e1, expP) := math2_alloc_node e0 .NODE_EXPONENT
  match expP with
  | none => e1
  | some x =>
    let (e2, baseP) := math2_new_sequence e1
    let e2b := updNode e2 x (with_exp_base baseP)
    let (e3, powerP) := math2_new_sequence e2b
    let e3b := updNode e3 x (with_exp_power powerP)
    match baseP, powerP with
    | some base, some power =>
      let e4 := updNode e3b base (fun n => { n with parent := some x })
      let e5 := updNode e4 power (fun n => { n with parent := some x })
      let e6 :=
        match e5.cursor.after with
        | some a =>
          if exp_collectible (getNode e5 a).type then
            let ea := { e5 with cursor := { e5.cursor with after := (getNode e5 a).prev } }
            let eb := seq_remove ea (some a)
            seq_insert_after eb (some base) none (some a)
          else e5
        | none => e5
      let e7 := seq_insert_after e6 e6.cursor.sequence e6.cursor.after (some x)
      let e8 := { e7 with cursor := { sequence := some power, after := none } }
      math2_clear_modes e8
    | _, _ => e3b

/-- math2_insert_subscript from math2.c: like the exponent but the base is
collected only from a TEXT node, and the cursor lands in the sub slot. -/
def math2_insert_subscript (e0 : math_expr2) : math_expr2 :=
  let (e1, subP) := math2_alloc_node e0 .NODE_SUBSCRIPT
  match subP with
  | none => e1
  | some x =>
    let (e2, baseP) := math2_new_sequence e1
    let e2b := updNode e2 x (with_sub_base baseP)
    let (e3, sP) := math2_new_sequence e2b
    let e3b := updNode e3 x (with_sub_sub sP)
    match baseP, sP with
    | some base, some s =>
      let e4 := updNode e3b base (fun n => { n with parent := some x })
      let e5 := updNode e4 s (fun n => { n with parent := some x })
      let e6 :=
        match e5.cursor.after with
        | some a =>
          if (getNode e5 a).type = .NODE_TEXT then
            let ea := { e5 with cursor := { e5.cursor with after := (getNode e5 a).prev } }
            let eb := seq_remove ea (some a)
            seq_insert_after eb (some base) none (some a)
          else e5
        | none => e5
      let e7 := seq_insert_after e6 e6.cursor.sequence e6.cursor.after (some x)
      let e8 := { e7 with cursor := { sequence := some s, after := none } }
      math2_clear_modes e8
    | _, _ => e3b

/-- math2_insert_nthroot from math2.c (fixed integer index): allocate a ROOT
node and its content sequence, splice, cursor into content. -/
def math2_insert_nthroot (e0 : math_expr2) (n : Int) : math_expr2 :=
  let (e1, rootP) := math2_alloc_node e0 .NODE_ROOT
  match rootP with
  | none => e1
  | some rt =>
    let e2 := updNode e1 rt (with_root_index n)
    let (e3, contentP) := math2_new_sequence e2
    let e3b := updNode e3 rt (with_root_content contentP)
    match contentP with
    | some content =>
      let e4 := updNode e3b content (fun m => { m with parent := some rt })
      let e5 := seq_insert_after e4 e4.cursor.sequence e4.cursor.after (some rt)
      let e6 := { e5 with cursor := { sequence := some content, after := none } }
      math2_clear_modes e6
    | none => e3b

/-- math2_insert_sqrt from math2.c. -/
def math2_insert_sqrt (e : math_expr2) : math_expr2 :=
  math2_insert_nthroot e 2

/-- math2_insert_xthroot from math2.c (editable index): allocate a NTHROOT
node with index and content sequences, splice, cursor into the index slot. -/
def math2_insert_xthroot (e0 : math_expr2) : math_expr2 :=
  let (e1, rootP) := math2_alloc_node e0 .NODE_NTHROOT
  match rootP with
  | none => e1
  | some rt =>
    let (e2, indexP) := math2_new_sequence e1
    let e2b := updNode e2 rt (with_nthroot_index indexP)
    let (e3, contentP) := math2_new_sequence e2b
    let e3b := updNode e3 rt (with_nthroot_content contentP)
    match indexP, contentP with
    | some ix, some content =>
      let e4 := updNode e3b ix (fun m => { m with parent := some rt })
      let e5 := updNode e4 content (fun m => { m with parent := some rt })
      let e6 := seq_insert_after e5 e5.cursor.sequence e5.cursor.after (some rt)
      let e7 := { e6 with cursor := { sequence := some ix, after := none } }
      math2_clear_modes e7
    | _, _ => e3b

/-- math2_insert_mixed_frac from math2.c: whole, numerator and denominator
sequences; cursor into the whole slot. -/
def math2_insert_mixed_frac (e0 : math_expr2) : math_expr2 :=
  let (e1, mfP) := math2_alloc_node e0 .NODE_MIXED_FRAC
  match mfP with
  | none => e1
  | some mf =>
    let (e2, wholeP) := math2_new_sequence e1
    let e2b := updNode e2 mf (with_mixed_whole wholeP)
    let (e3, numerP) := math2_new_sequence e2b
    let e3b := updNode e3 mf (with_mixed_numer numerP)
    let (e4, denomP) := math2_new_sequence e3b
    let e4b := updNode e4 mf (with_mixed_denom denomP)
    match wholeP, numerP, denomP with
    | some w, some nu, some de =>
      let e5 := updNode e4b w (fun m => { m with parent := some mf })
      let e6 := updNode e5 nu (fun m => { m with parent := some mf })
      let e7 := updNode e6 de (fun m => { m with parent := some mf })
      let e8 := seq_insert_after e7 e7.cursor.sequence e7.cursor.after (some mf)
      let e9 := { e8 with cursor := { sequence := some w, after := none } }
      math2_clear_modes e9
    | _, _, _ => e4b

/-- math2_insert_abs from math2.c. -/
def math2_insert_abs (e0 : math_expr2) : math_expr2 :=
  let (e1, abP) := math2_alloc_node e0 .NODE_ABS
  match abP with
  | none => e1
  | some ab =>
    let (e2, contentP) := math2_new_sequence e1
    let e2b := updNode e2 ab (with_abs_content contentP)
    match contentP with
    | some content =>
      let e3 := updNode e2b content (fun m => { m with parent := some ab })
      let e4 := seq_insert_after e3 e3.cursor.sequence e3.cursor.after (some ab)
      let e5 := { e4 with cursor := { sequence := some content, after := none } }
      math2_clear_modes e5
    | none => e2b

/-- math2_insert_paren from math2.c. -/
def math2_insert_paren (e0 : math_expr2) : math_expr2 :=
  let (e1, pP) := math2_alloc_node e0 .NODE_PAREN
  match pP with
  | none => e1
  | some pr =>
    let (e2, contentP) := math2_new_sequence e1
    let e2b := updNode e2 pr (with_paren_content contentP)
    match contentP with
    | some content =>
      let e3 := updNode e2b content (fun m => { m with parent := some pr })
      let e4 := seq_insert_after e3 e3.cursor.sequence e3.cursor.after (some pr)
      let e5 := { e4 with cursor := { sequence := some content, after := none } }
      math2_clear_modes e5
    | none => e2b

/-- math2_insert_function from math2.c: copy at most 7 characters of the name
(`strncpy` into the 8-byte buffer), allocate the argument sequence, splice,
cursor into the argument. -/
def math2_insert_function (e0 : math_expr2) (name : String) : math_expr2 :=
  let (e1, fP) := math2_alloc_node e0 .NODE_FUNCTION
  match fP with
  | none => e1
  | some fn =>
    let e2 := updNode e1 fn (with_func_name (name.take 7))
    let (e3, argP) := math2_new_sequence e2
    let e3b := updNode e3 fn (with_func_arg argP)
    match argP with
    | some arg =>
      let e4 := updNode e3b arg (fun m => { m with parent := some fn })
      let e5 := seq_insert_after e4 e4.cursor.sequence e4.cursor.after (some fn)
      let e6 := { e5 with cursor := { sequence := some arg, after := none } }
      math2_clear_modes e6
    | none => e3b

/-- Read `node->data.root.index`. -/
def root_index (n : expr_node) : Int :=
  match n.data with
  | .root ix _ => ix
  | _ => 0

/-- Call tags for the mutually recursive latex_node / latex_sequence pair of
math2.c, plus the child walk inside latex_sequence. -/
inductive lcall where
  | nodep (i : Nat)
  | seqp (p : Option Nat)
  | chain (p : Option Nat)

/-- latex_node and latex_sequence from math2.c merged into one structural
recursion on fuel.  The C code appends to a buffer with unchecked `strcat`;
here the emitted string is built and returned, with no truncation, exactly as
the concatenation the C code writes.  Braces are written with their escape
codes but denote the plain brace characters of the C literals. -/
def latex_go (e : math_expr2) : Nat → lcall → String
  | 0, _ => ""
  | fuel + 1, .nodep i =>
    let n := getNode e i
    match n.type with
    | .NODE_SEQUENCE => latex_go e fuel (.seqp (some i))
    | .NODE_TEXT =>
      match n.data with
      | .text st s =>
        match st with
        | .TEXT_PI => "\\pi "
        | .TEXT_OPERATOR => if s = "×" then "*" else if s = "÷" then "/" else s
        | _ => s
      | _ => ""
    | .NODE_FRACTION =>
      "\\frac\x7b" ++ latex_go e fuel (.seqp (frac_numer n)) ++ "\x7d\x7b" ++
        latex_go e fuel (.seqp (frac_denom n)) ++ "\x7d"
    | .NODE_EXPONENT =>
      "\x7b" ++ latex_go e fuel (.seqp (exp_base n)) ++ "\x7d^\x7b" ++
        latex_go e fuel (.seqp (exp_power n)) ++ "\x7d"
    | .NODE_SUBSCRIPT =>
      "\x7b" ++ latex_go e fuel (.seqp (subscript_base n)) ++ "\x7d_\x7b" ++
        latex_go e fuel (.seqp (subscript_sub n)) ++ "\x7d"
    | .NODE_ROOT =>
      (if root_index n = 2 then "\\sqrt\x7b"
       else "\\sqrt[" ++ toString (root_index n) ++ "]\x7b") ++
        latex_go e fuel (.seqp (root_content n)) ++ "\x7d"
    | .NODE_ABS =>
      "\\left|" ++ latex_go e fuel (.seqp (abs_content n)) ++ "\\right|"
    | .NODE_PAREN =>
      "\\left(" ++ latex_go e fuel (.seqp (paren_content n)) ++ "\\right)"
    | .NODE_FUNCTION =>
      "\\" ++ func_name n ++ "\\left(" ++ latex_go e fuel (.seqp (func_arg n)) ++ "\\right)"
    | .NODE_NTHROOT =>
      "\\sqrt[" ++ latex_go e fuel (.seqp (nthroot_index n)) ++ "]\x7b" ++
        latex_go e fuel (.seqp (nthroot_content n)) ++ "\x7d"
    | .NODE_MIXED_FRAC =>
      latex_go e fuel (.seqp (mixed_whole n)) ++ "\\frac\x7b" ++
        latex_go e fuel (.seqp (mixed_numer n)) ++ "\x7d\x7b" ++
        latex_go e fuel (.seqp (mixed_denom n)) ++ "\x7d"
    | .NODE_EMPTY => ""
  | fuel + 1, .seqp p =>
    match p with
    | none => ""
    | some s =>
      if (getNode e s).type = .NODE_SEQUENCE then
        latex_go e fuel (.chain (seq_first (getNode e s)))
      else ""
  | _ + 1, .chain none => ""
  | fuel + 1, .chain (some c) =>
    latex_go e fuel (.nodep c) ++ latex_go e fuel (.chain (getNode e c).next)

/-- math2_to_latex from math2.c: reset the latex buffer and serialize the root
sequence into it.  The C buffer is `char latex[MAX_LATEX]` and the appends are
unchecked; the model stores the full concatenation the code writes. -/
def math2_to_latex (fuel : Nat) (e : math_expr2) : math_expr2 :=
  { e with latex := latex_go e fuel (.seqp e.root) }

/-- Observed shape of a (sub)tree, used to state what is reachable from a
sequence.  A sequence of siblings is observed as a `cons`-chain ending in
`nil`; container slots hold the chain of their slot sequence. -/
inductive MathTree where
  | nil
  | cons (head tail : MathTree)
  | text (subtype : text_type_t) (s : String)
  | frac (numer denom : MathTree)
  | exp (base power : MathTree)
  | subscript (base sub : MathTree)
  | root (index : Int) (content : MathTree)
  | nthroot (index content : MathTree)
  | abs (content : MathTree)
  | paren (content : MathTree)
  | func (name : String) (arg : MathTree)
  | mixed (whole numer denom : MathTree)
deriving DecidableEq, Repr

/-- Call tags for the tree observation: one node, or a sibling chain. -/
inductive rcall where
  | nodep (i : Nat)
  | chain (p : Option Nat)

/-- Observation of the pool: read the tree hanging off a node or a sibling
chain.  It fails (returns `none`) if the walk meets an Empty slot, a node
whose union data does not match its type, a null slot pointer, or if the fuel
runs out (as happens on any cyclic pointer structure). -/
def read_go (e : math_expr2) : Nat → rcall → Option MathTree
  | 0, _ => none
  | fuel + 1, .nodep i =>
    let n := getNode e i
    match n.type with
    | .NODE_EMPTY => none
    | .NODE_SEQUENCE =>
      match n.data with
      | .seq first _ => read_go e fuel (.chain first)
      | _ => none
    | .NODE_TEXT =>
      match n.data with
      | .text st s => some (.text st s)
      | _ => none
    | .NODE_FRACTION =>
      match n.data with
      | .frac (some nu) (some de) =>
        (read_go e fuel (.nodep nu)).bind fun a =>
          (read_go e fuel (.nodep de)).map fun b => .frac a b
      | _ => none
    | .NODE_EXPONENT =>
      match n.data with
      | .exp (some b) (some p) =>
        (read_go e fuel (.nodep b)).bind fun a =>
          (read_go e fuel (.nodep p)).map fun c => .exp a c
      | _ => none
    | .NODE_SUBSCRIPT =>
      match n.data with
      | .subscript (some b) (some s) =>
        (read_go e fuel (.nodep b)).bind fun a =>
          (read_go e fuel (.nodep s)).map fun c => .subscript a c
      | _ => none
    | .NODE_ROOT =>
      match n.data with
      | .root ix (some c) => (read_go e fuel (.nodep c)).map fun a => .root ix a
      | _ => none
    | .NODE_NTHROOT =>
      match n.data with
      | .nthroot (some ix) (some c) =>
        (read_go e fuel (.nodep ix)).bind fun a =>
          (read_go e fuel (.nodep c)).map fun b => .nthroot a b
      | _ => none
    | .NODE_ABS =>
      match n.data with
      | .abs (some c) => (read_go e fuel (.nodep c)).map fun a => .abs a
      | _ => none
    | .NODE_PAREN =>
      match n.data with
      | .paren (some c) => (read_go e fuel (.nodep c)).map fun a => .paren a
      | _ => none
    | .NODE_FUNCTION =>
      match n.data with
      | .func nm (some a) => (read_go e fuel (.nodep a)).map fun b => .func nm b
      | _ => none
    | .NODE_MIXED_FRAC =>
      match n.data with
      | .mixed (some w) (some nu) (some de) =>
        (read_go e fuel (.nodep w)).bind fun a =>
          (read_go e fuel (.nodep nu)).bind fun b =>
            (read_go e fuel (.nodep de)).map fun c => .mixed a b c
      | _ => none
  | _ + 1, .chain none => some .nil
  | fuel + 1, .chain (some c) =>
    (read_go e fuel (.nodep c)).bind fun t =>
      (read_go e fuel (.chain (getNode e c).next)).map fun rest => .cons t rest

/-- The tree reachable from the expression's root sequence. -/
def readRoot (fuel : Nat) (e : math_expr2) : Option MathTree :=
  match e.root with
  | some r => read_go e fuel (.nodep r)
  | none => none

/-- Call tags for the draw traversal: one node, the children of a sequence
node, or a sibling chain. -/
inductive dcall where
  | nodep (i : Nat)
  | seqp (p : Option Nat)
  | chain (p : Option Nat)

/-- The bracket-coloring skeleton of math2_draw_node / draw_sequence: it
follows exactly the sub-sequence traversal the draw pass performs (a slot
whose sequence is empty is drawn as a placeholder, without recursing) and
keeps the `g_paren_depth` counter.  For every NODE_PAREN it records the color
chosen before the depth is incremented: the palette index
`g_paren_depth % NUM_PAREN_COLORS` when `g_color_brackets` is on (`flag`),
`none` for plain COL_TEXT when it is off; the depth is decremented after the
content is drawn.  Geometry and pixel output are not modelled: they do not
touch the depth counter or the color choice. -/
def draw_go (e : math_expr2) (flag : Bool) : Nat → dcall → Nat → List (Option Nat) × Nat
  | 0, _, d => ([], d)
  | fuel + 1, .nodep i, d =>
    let n := getNode e i
    match n.type with
    | .NODE_SEQUENCE => draw_go e flag fuel (.chain (seq_first n)) d
    | .NODE_TEXT => ([], d)
    | .NODE_FRACTION =>
      let r1 := if seq_is_empty e (frac_numer n) then ([], d)
                else draw_go e flag fuel (.seqp (frac_numer n)) d
      let r2 := if seq_is_empty e (frac_denom n) then ([], r1.2)
                else draw_go e flag fuel (.seqp (frac_denom n)) r1.2
      (r1.1 ++ r2.1, r2.2)
    | .NODE_EXPONENT =>
      let r1 := if seq_is_empty e (exp_base n) then ([], d)
                else draw_go e flag fuel (.seqp (exp_base n)) d
      let r2 := if seq_is_empty e (exp_power n) then ([], r1.2)
                else draw_go e flag fuel (.seqp (exp_power n)) r1.2
      (r1.1 ++ r2.1, r2.2)
    | .NODE_SUBSCRIPT =>
      let r1 := if seq_is_empty e (subscript_base n) then ([], d)
                else draw_go e flag fuel (.seqp (subscript_base n)) d
      let r2 := if seq_is_empty e (subscript_sub n) then ([], r1.2)
                else draw_go e flag fuel (.seqp (subscript_sub n)) r1.2
      (r1.1 ++ r2.1, r2.2)
    | .NODE_ROOT =>
      if seq_is_empty e (root_content n) then ([], d)
      else draw_go e flag fuel (.seqp (root_content n)) d
    | .NODE_NTHROOT =>
      let r1 := if seq_is_empty e (nthroot_index n) then ([], d)
                else draw_go e flag fuel (.seqp (nthroot_index n)) d
      let r2 := if seq_is_empty e (nthroot_content n) then ([], r1.2)
                else draw_go e flag fuel (.seqp (nthroot_content n)) r1.2
      (r1.1 ++ r2.1, r2.2)
    | .NODE_MIXED_FRAC =>
      let r1 := if seq_is_empty e (mixed_whole n) then ([], d)
                else draw_go e flag fuel (.seqp (mixed_whole n)) d
      let r2 := if seq_is_empty e (mixed_numer n) then ([], r1.2)
                else draw_go e flag fuel (.seqp (mixed_numer n)) r1.2
      let r3 := if seq_is_empty e (mixed_denom n) then ([], r2.2)
                else draw_go e flag fuel (.seqp (mixed_denom n)) r2.2
      (r1.1 ++ r2.1 ++ r3.1, r3.2)
    | .NODE_ABS =>
      if seq_is_empty e (abs_content n) then ([], d)
      else draw_go e flag fuel (.seqp (abs_content n)) d
    | .NODE_PAREN =>
      let col : Option Nat := if flag then some (d % NUM_PAREN_COLORS) else none
      let d1 := d + 1
      let r := if seq_is_empty e (paren_content n) then (([] : List (Option Nat)), d1)
               else draw_go e flag fuel (.seqp (paren_content n)) d1
      (col :: r.1, r.2 - 1)
    | .NODE_FUNCTION =>
      if seq_is_empty e (func_arg n) then ([], d)
      else draw_go e flag fuel (.seqp (func_arg n)) d
    | .NODE_EMPTY => ([], d)
  | fuel + 1, .seqp p, d =>
    match p with
    | none => ([], d)
    | some s => draw_go e flag fuel (.chain (seq_first (getNode e s))) d
  | _ + 1, .chain none, d => ([], d)
  | fuel + 1, .chain (some c), d =>
    let r1 := draw_go e flag fuel (.nodep c) d
    let r2 := draw_go e flag fuel (.chain (getNode e c).next) r1.2
    (r1.1 ++ r2.1, r2.2)

/-- math2_draw from math2.c, restricted to its bracket-coloring effects: it
draws the root sequence with the current `g_paren_depth` value `d0` (the
counter is initialized to 0 and, being balanced, stays 0 between draws). -/
def math2_draw_events (fuel : Nat) (e : math_expr2) (flag : Bool) (d0 : Nat) :
    List (Option Nat) × Nat :=
  draw_go e flag fuel (.seqp e.root) d0

/-- Everything except the cursor agrees between two states: the whole node
pool, the free-scan position, the root, the latex buffer and both mode
flags. -/
def sameExceptCursor (e e2 : math_expr2) : Prop :=
  e2.nodes = e.nodes ∧ e2.next_free = e.next_free ∧ e2.root = e.root ∧
    e2.latex = e.latex ∧ e2.shift_mode = e.shift_mode ∧ e2.alpha_mode = e.alpha_mode


/-- Number of Empty slots among the pool's MAX_NODES slots. -/
def emptyCount (e : math_expr2) : Nat :=
  ((Finset.range MAX_NODES).filter (fun i => (getNode e i).type = .NODE_EMPTY)).card

/-- Pool extension: `e2` agrees with `e` on every slot that is live
(non-Empty) in `e`, and has the same root and cursor.  Every failure path of
an insertion operation leaves the state in this relation to the initial
state: only freshly allocated (previously Empty) slots were touched. -/
def poolExt (e e2 : math_expr2) : Prop :=
  (∀ j, (getNode e j).type ≠ .NODE_EMPTY → getNode e2 j = getNode e j) ∧
    e2.root = e.root ∧ e2.cursor = e.cursor

/-- Build a state by typing digit texts: used by concrete scenarios. -/
def insert_digits (e : math_expr2) : List String → math_expr2
  | [] => e
  | d :: rest => insert_digits (math2_insert_text e .TEXT_NUMBER d) rest

/-- Scenario state for C2: digits 1, 2, 3 then a fraction. -/
def eC2 : math_expr2 :=
  math2_insert_fraction (insert_digits math2_init ["1", "2", "3"])

/-- Scenario state for C1, before the fraction: 1, +, 2 with the cursor moved
one step left, i.e. sitting right after the operator and right before the
digit 2. -/
def eC1_before : math_expr2 :=
  (cursor_left (math2_insert_text (math2_insert_text
    (math2_insert_text math2_init .TEXT_NUMBER "1") .TEXT_OPERATOR "+")
    .TEXT_NUMBER "2")).1

/-- Scenario state for C1, after inserting the fraction at that cursor. -/
def eC1_after : math_expr2 := math2_insert_fraction eC1_before

/-- The freshly initialized sequence node produced by math2_new_sequence. -/
def fresh_seq_node : expr_node :=
  { type := .NODE_SEQUENCE, parent := none, next := none, prev := none,
    data := .seq none none }

/-- Scenario state for C3: digits 1, 2 then an exponent. -/
def eC3 : math_expr2 := math2_insert_exponent (insert_digits math2_init ["1", "2"])

/-- Insert `n` texts of the 15-character string used to overflow MAX_LATEX. -/
def rep_text15 : Nat → math_expr2 → math_expr2
  | 0, e => e
  | n + 1, e => rep_text15 n (math2_insert_text e .TEXT_NUMBER "123456789012345")

/-- Scenario state for C5: 69 text nodes of 15 characters each, whose
serialization is 1035 bytes, exceeding the 1024-byte latex buffer. -/
def eC5 : math_expr2 := rep_text15 69 math2_init

/-- Insert `n` nested parentheses (each insert_paren leaves the cursor inside
the new content slot, so repeated inserts nest). -/
def nest_parens : Nat → math_expr2 → math_expr2
  | 0, e => e
  | n + 1, e => nest_parens n (math2_insert_paren e)

/-- Scenario state for C9: three nested parentheses. -/
def eParen3 : math_expr2 := nest_parens 3 math2_init

/-- Scenario state for C9, exercising the modulo-5 palette cycling: six
nested parentheses. -/
def eParen6 : math_expr2 := nest_parens 6 math2_init

/-- A full pool with a live empty root sequence in slot 0 and text nodes in
every other slot: allocation must fail on it. -/
def eFull : math_expr2 :=
  { nodes := fun i =>
      if i = 0 then
        { type := .NODE_SEQUENCE, parent := none, next := none, prev := none,
          data := .seq none none }
      else
        { type := .NODE_TEXT, parent := none, next := none, prev := none,
          data := .text .TEXT_NUMBER "9" },
    next_free := 1, root := some 0, cursor := { sequence := some 0, after := none },
    latex := "", shift_mode := false, alpha_mode := false }

/-! ### Basic pool lemmas -/

theorem getNode_setNode_self (e : math_expr2) (i : Nat) (n : expr_node) :
    getNode (setNode e i n) i = n := by
  simp [getNode, setNode]

theorem getNode_setNode_ne (e : math_expr2) (i j : Nat) (n : expr_node) (h : j ≠ i) :
    getNode (setNode e i n) j = getNode e j := by
  simp [getNode, setNode, h]

theorem getNode_updNode_self (e : math_expr2) (i : Nat) (f : expr_node → expr_node) :
    getNode (updNode e i f) i = f (getNode e i) := by
  simp [updNode, getNode_setNode_self]

theorem getNode_updNode_ne (e : math_expr2) (i j : Nat) (f : expr_node → expr_node)
    (h : j ≠ i) : getNode (updNode e i f) j = getNode e j := by
  simp [updNode, getNode_setNode_ne, h]

theorem updNode_cursor (e : math_expr2) (i : Nat) (f : expr_node → expr_node) :
    (updNode e i f).cursor = e.cursor := rfl

theorem updNode_root (e : math_expr2) (i : Nat) (f : expr_node → expr_node) :
    (updNode e i f).root = e.root := rfl

theorem updNode_next_free (e : math_expr2) (i : Nat) (f : expr_node → expr_node) :
    (updNode e i f).next_free = e.next_free := rfl

/-! ### C10: cursor operations only move the cursor -/

theorem sameExceptCursor_rfl (e : math_expr2) : sameExceptCursor e e :=
  ⟨rfl, rfl, rfl, rfl, rfl, rfl⟩

theorem sameExceptCursor_set (e : math_expr2) (c : cursor_t) :
    sameExceptCursor e { e with cursor := c } :=
  ⟨rfl, rfl, rfl, rfl, rfl, rfl⟩

theorem cursor_left_same (e : math_expr2) : sameExceptCursor e (cursor_left e).1 := by
  unfold cursor_left
  split
  · exact sameExceptCursor_set e _
  · exact sameExceptCursor_rfl e

theorem cursor_right_same (e : math_expr2) : sameExceptCursor e (cursor_right e).1 := by
  unfold cursor_right
  split
  · exact sameExceptCursor_set e _
  · exact sameExceptCursor_rfl e

theorem cursor_enter_same (e : math_expr2) : sameExceptCursor e (cursor_enter e).1 := by
  unfold cursor_enter
  repeat' (first | split | dsimp only)
  all_goals first
    | exact sameExceptCursor_rfl e
    | exact sameExceptCursor_set e _

theorem cursor_enter_left_same (e : math_expr2) :
    sameExceptCursor e (cursor_enter_left e).1 := by
  unfold cursor_enter_left
  repeat' (first | split | dsimp only)
  all_goals first
    | exact sameExceptCursor_rfl e
    | exact sameExceptCursor_set e _

theorem cursor_enter_right_same (e : math_expr2) :
    sameExceptCursor e (cursor_enter_right e).1 := by
  unfold cursor_enter_right
  repeat' (first | split | dsimp only)
  all_goals first
    | exact sameExceptCursor_rfl e
    | exact sameExceptCursor_set e _

theorem cursor_exit_same (e : math_expr2) : sameExceptCursor e (cursor_exit e).1 := by
  unfold cursor_exit
  repeat' split
  all_goals first
    | exact sameExceptCursor_rfl e
    | exact sameExceptCursor_set e _

theorem cursor_exit_right_same (e : math_expr2) :
    sameExceptCursor e (cursor_exit_right e).1 := by
  unfold cursor_exit_right
  repeat' split
  all_goals first
    | exact sameExceptCursor_rfl e
    | exact sameExceptCursor_set e _

theorem cursor_exit_left_same (e : math_expr2) :
    sameExceptCursor e (cursor_exit_left e).1 := by
  unfold cursor_exit_left
  repeat' split
  all_goals first
    | exact sameExceptCursor_rfl e
    | exact sameExceptCursor_set e _

theorem cursor_next_slot_same (e : math_expr2) :
    sameExceptCursor e (cursor_next_slot e).1 := by
  unfold cursor_next_slot
  repeat' split
  all_goals first
    | exact sameExceptCursor_rfl e
    | exact sameExceptCursor_set e _

theorem cursor_prev_slot_same (e : math_expr2) :
    sameExceptCursor e (cursor_prev_slot e).1 := by
  unfold cursor_prev_slot
  repeat' split
  all_goals first
    | exact sameExceptCursor_rfl e
    | exact sameExceptCursor_set e _

/-- C10: no cursor navigation operation modifies the node pool (hence no
node's type, links or contents), the free-scan position, the root, the latex
buffer, or the shift/alpha mode flags — succeed or fail, each only rewrites
the cursor's (sequence, after) pair. -/
theorem cursor_ops_only_move_cursor (e : math_expr2) :
    sameExceptCursor e (cursor_left e).1 ∧ sameExceptCursor e (cursor_right e).1 ∧
    sameExceptCursor e (cursor_enter e).1 ∧ sameExceptCursor e (cursor_enter_left e).1 ∧
    sameExceptCursor e (cursor_enter_right e).1 ∧ sameExceptCursor e (cursor_exit e).1 ∧
    sameExceptCursor e (cursor_exit_right e).1 ∧ sameExceptCursor e (cursor_exit_left e).1 ∧
    sameExceptCursor e (cursor_next_slot e).1 ∧ sameExceptCursor e (cursor_prev_slot e).1 :=
  ⟨cursor_left_same e, cursor_right_same e, cursor_enter_same e, cursor_enter_left_same e,
    cursor_enter_right_same e, cursor_exit_same e, cursor_exit_right_same e,
    cursor_exit_left_same e, cursor_next_slot_same e, cursor_prev_slot_same e⟩

/-! ### C8: boundary failures of cursor movement -/

/-- C8: cursor_left at the start of its sequence (after = NULL) fails and
leaves the state unchanged; cursor_right at the end of its sequence (no next
candidate) fails and leaves the state unchanged; cursor_exit_right fails when
the cursor's sequence is the tree root (a sequence with no parent); and on
the freshly initialized empty expression both cursor_left and cursor_right
fail. -/
theorem cursor_boundary_failures :
    (∀ e : math_expr2, e.cursor.after = none → cursor_left e = (e, false)) ∧
    (∀ e : math_expr2, cursor_right_target e = none → cursor_right e = (e, false)) ∧
    (∀ e : math_expr2, (getPtr e e.cursor.sequence).parent = none →
      cursor_exit_right e = (e, false)) ∧
    cursor_left math2_init = (math2_init, false) ∧
    cursor_right math2_init = (math2_init, false) := by
  refine ⟨?_, ?_, ?_, rfl, rfl⟩
  · intro e h
    unfold cursor_left
    rw [h]
  · intro e h
    unfold cursor_right
    rw [h]
  · intro e h
    unfold cursor_exit_right
    rw [h]

/-- Witness for C8 at concrete states: the root sequence of the initialized
expression has no parent, so exiting fails there, and moving left fails with
the cursor at the start. -/
theorem cursor_boundary_failures_witness :
    cursor_exit_right math2_init = (math2_init, false) ∧
    cursor_left math2_init = (math2_init, false) ∧
    cursor_right math2_init = (math2_init, false) :=
  ⟨cursor_boundary_failures.2.2.1 math2_init (by decide),
    cursor_boundary_failures.1 math2_init (by decide),
    cursor_boundary_failures.2.1 math2_init (by decide)⟩

/-! ### C7: release is a no-op on null / already-Empty nodes -/

theorem free_go_nodep_none (fuel : Nat) (e : math_expr2) :
    free_go fuel (.nodep none) e = e := by
  cases fuel <;> rfl

theorem free_go_nodep_empty (fuel : Nat) (e : math_expr2) (i : Nat)
    (h : (getNode e i).type = .NODE_EMPTY) :
    free_go fuel (.nodep (some i)) e = e := by
  cases fuel with
  | zero => rfl
  | succ n => simp [free_go, h]

theorem free_go_sets_empty (fuel : Nat) (e : math_expr2) (i : Nat) (h : 0 < fuel) :
    (getNode (free_go fuel (.nodep (some i)) e) i).type = .NODE_EMPTY := by
  cases fuel with
  | zero => omega
  | succ n =>
    by_cases hE : (getNode e i).type = .NODE_EMPTY
    · rw [free_go_nodep_empty _ _ _ hE]
      exact hE
    · simp only [free_go]
      rw [if_neg hE]
      rw [getNode_updNode_self]

/-- C7: releasing a NULL node is a no-op, releasing a node whose slot is
already Empty is a no-op (the whole state — every pool slot and the free-scan
position — is untouched), and consequently releasing the same node a second
time changes nothing. -/
theorem math2_free_node_idempotent :
    (∀ (fuel : Nat) (e : math_expr2), math2_free_node fuel e none = e) ∧
    (∀ (fuel : Nat) (e : math_expr2) (i : Nat), (getNode e i).type = .NODE_EMPTY →
      math2_free_node fuel e (some i) = e) ∧
    (∀ (fuel fuel2 : Nat) (e : math_expr2) (i : Nat), 0 < fuel →
      math2_free_node fuel2 (math2_free_node fuel e (some i)) (some i) =
        math2_free_node fuel e (some i)) := by
  refine ⟨fun fuel e => free_go_nodep_none fuel e,
    fun fuel e i h => free_go_nodep_empty fuel e i h, fun fuel fuel2 e i h => ?_⟩
  exact free_go_nodep_empty fuel2 _ i (free_go_sets_empty fuel e i h)

/-- Witness for C7: the initialized pool has slot 7 Empty, so releasing it
does nothing; slot 0 holds the live root sequence, and releasing it twice
equals releasing it once. -/
theorem math2_free_node_idempotent_witness :
    math2_free_node 5 math2_init (some 7) = math2_init ∧
    math2_free_node 6 (math2_free_node 5 math2_init (some 0)) (some 0) =
      math2_free_node 5 math2_init (some 0) ∧
    math2_free_node 4 math2_init none = math2_init :=
  ⟨math2_free_node_idempotent.2.1 5 math2_init 7 (by decide),
    math2_free_node_idempotent.2.2 5 6 math2_init 0 (by decide),
    math2_free_node_idempotent.1 4 math2_init⟩

/-! ### C6: allocator round-robin characterization -/

theorem scan_from_none_spec :
    ∀ (r i : Nat) (e : math_expr2), scan_from e i r = none →
      ∀ j, j < r → (getNode e ((e.next_free + (i + j)) % MAX_NODES)).type ≠ .NODE_EMPTY := by
  intro r
  induction r with
  | zero => intro i e _ j hj; omega
  | succ n ih =>
    intro i e h j hj
    rw [scan_from] at h
    by_cases hE : (getNode e ((e.next_free + i) % MAX_NODES)).type = .NODE_EMPTY
    · rw [if_pos hE] at h; exact absurd h (by simp)
    · rw [if_neg hE] at h
      match j, hj with
      | 0, _ => simpa using hE
      | Nat.succ m, hj =>
        have := ih (i + 1) e h m (by omega)
        have harith : i + 1 + m = i + (m + 1) := by omega
        rw [harith] at this
        exact this

theorem scan_from_some_spec :
    ∀ (r i : Nat) (e : math_expr2) (idx : Nat), scan_from e i r = some idx →
      ∃ k, k < r ∧ idx = (e.next_free + (i + k)) % MAX_NODES ∧
        (getNode e idx).type = .NODE_EMPTY ∧
        ∀ j, j < k → (getNode e ((e.next_free + (i + j)) % MAX_NODES)).type ≠ .NODE_EMPTY := by
  intro r
  induction r with
  | zero => intro i e idx h; exact absurd h (by simp [scan_from])
  | succ n ih =>
    intro i e idx h
    rw [scan_from] at h
    by_cases hE : (getNode e ((e.next_free + i) % MAX_NODES)).type = .NODE_EMPTY
    · rw [if_pos hE] at h
      refine ⟨0, by omega, ?_, ?_, fun j hj => by omega⟩
      · cases h; simp
      · cases h; simpa using hE
    · rw [if_neg hE] at h
      obtain ⟨k, hk, heq, hempty, hmin⟩ := ih (i + 1) e idx h
      refine ⟨k + 1, by omega, ?_, hempty, ?_⟩
      · rw [heq]; congr 1; omega
      · intro j hj
        match j, hj with
        | 0, _ => simpa using hE
        | Nat.succ m, hj =>
          have := hmin m (by omega)
          have harith : i + 1 + m = i + (m + 1) := by omega
          rw [harith] at this
          exact this

theorem probe_coverage (nf idx : Nat) (h : idx < MAX_NODES) :
    ∃ j, j < MAX_NODES ∧ (nf + j) % MAX_NODES = idx := by
  have hdm := Nat.div_add_mod nf MAX_NODES
  have hmod : nf % MAX_NODES < MAX_NODES := Nat.mod_lt _ (by decide)
  by_cases hc : nf % MAX_NODES ≤ idx
  · refine ⟨idx - nf % MAX_NODES, by omega, ?_⟩
    have h1 : nf + (idx - nf % MAX_NODES) = idx + MAX_NODES * (nf / MAX_NODES) := by omega
    rw [h1, Nat.add_mul_mod_self_left, Nat.mod_eq_of_lt h]
  · refine ⟨idx + MAX_NODES - nf % MAX_NODES, by omega, ?_⟩
    have h1 : nf + (idx + MAX_NODES - nf % MAX_NODES) =
        idx + MAX_NODES * (nf / MAX_NODES) + MAX_NODES := by omega
    rw [h1, Nat.add_mod_right, Nat.add_mul_mod_self_left, Nat.mod_eq_of_lt h]

theorem math2_alloc_node_eq_none (e : math_expr2) (ty : node_type_t)
    (h : scan_from e 0 MAX_NODES = none) : math2_alloc_node e ty = (e, none) := by
  unfold math2_alloc_node
  rw [h]

theorem math2_alloc_node_eq_some (e : math_expr2) (ty : node_type_t) (idx : Nat)
    (h : scan_from e 0 MAX_NODES = some idx) :
    math2_alloc_node e ty =
      ({ setNode e idx
          { type := ty, parent := none, next := none, prev := none, data := zero_data ty }
          with next_free := (idx + 1) % MAX_NODES }, some idx) := by
  unfold math2_alloc_node
  rw [h]

/-- C6: math2_alloc_node scans for an Empty slot cyclically starting at the
rotating `next_free` cursor (the returned slot is the first Empty probe of the
sequence `(next_free + j) % MAX_NODES`, j = 0,1,...: round-robin, not
first-fit from zero); on success that slot alone is rewritten, zero-filled
with the requested type, and `next_free` advances to just past it; when no
slot of the pool is Empty it returns the null signal with the state — in
particular every pool slot — untouched. -/
theorem math2_alloc_node_round_robin (e : math_expr2) (ty : node_type_t) :
    ((math2_alloc_node e ty).2 = none →
      (math2_alloc_node e ty).1 = e ∧
      ∀ i, i < MAX_NODES → (getNode e i).type ≠ .NODE_EMPTY) ∧
    (∀ idx, (math2_alloc_node e ty).2 = some idx →
      ∃ k, k < MAX_NODES ∧ idx = (e.next_free + k) % MAX_NODES ∧
        (∀ j, j < k → (getNode e ((e.next_free + j) % MAX_NODES)).type ≠ .NODE_EMPTY) ∧
        (getNode e idx).type = .NODE_EMPTY ∧
        getNode (math2_alloc_node e ty).1 idx =
          { type := ty, parent := none, next := none, prev := none, data := zero_data ty } ∧
        (∀ j, j ≠ idx → getNode (math2_alloc_node e ty).1 j = getNode e j) ∧
        ((math2_alloc_node e ty).1).next_free = (idx + 1) % MAX_NODES ∧
        ((math2_alloc_node e ty).1).root = e.root ∧
        ((math2_alloc_node e ty).1).cursor = e.cursor) := by
  cases hscan : scan_from e 0 MAX_NODES with
  | none =>
    rw [math2_alloc_node_eq_none e ty hscan]
    refine ⟨fun _ => ⟨rfl, fun i hi => ?_⟩, fun idx h => by simp at h⟩
    obtain ⟨j, hj, hcov⟩ := probe_coverage e.next_free i hi
    have hne := scan_from_none_spec MAX_NODES 0 e hscan j hj
    rw [Nat.zero_add] at hne
    rw [hcov] at hne
    exact hne
  | some idx2 =>
    rw [math2_alloc_node_eq_some e ty idx2 hscan]
    refine ⟨fun h => by simp at h, fun idx h => ?_⟩
    have hidx : idx2 = idx := by simpa using h
    subst hidx
    obtain ⟨k, hk, heq, hempty, hmin⟩ := scan_from_some_spec MAX_NODES 0 e idx2 hscan
    rw [Nat.zero_add] at heq
    refine ⟨k, hk, heq, fun j hj => ?_, hempty, ?_, fun j hj => ?_, rfl, rfl, rfl⟩
    · have hne := hmin j hj
      rw [Nat.zero_add] at hne
      exact hne
    · exact getNode_setNode_self e idx2 _
    · exact getNode_setNode_ne e idx2 j _ hj

/-- Witness for C6: on the freshly initialized pool (root sequence in slot 0,
`next_free` = 1) allocating a TEXT node returns slot 1 and advances
`next_free` to 2. -/
theorem math2_alloc_node_round_robin_witness :
    (math2_alloc_node math2_init .NODE_TEXT).2 = some 1 ∧
    ∃ k, k < MAX_NODES ∧ 1 = (math2_init.next_free + k) % MAX_NODES ∧
      (∀ j, j < k →
        (getNode math2_init ((math2_init.next_free + j) % MAX_NODES)).type ≠ .NODE_EMPTY) ∧
      (getNode math2_init 1).type = .NODE_EMPTY ∧
      getNode (math2_alloc_node math2_init .NODE_TEXT).1 1 =
        { type := .NODE_TEXT, parent := none, next := none, prev := none,
          data := zero_data .NODE_TEXT } ∧
      (∀ j, j ≠ 1 → getNode (math2_alloc_node math2_init .NODE_TEXT).1 j =
        getNode math2_init j) ∧
      ((math2_alloc_node math2_init .NODE_TEXT).1).next_free = 2 % MAX_NODES ∧
      ((math2_alloc_node math2_init .NODE_TEXT).1).root = math2_init.root ∧
      ((math2_alloc_node math2_init .NODE_TEXT).1).cursor = math2_init.cursor := by
  refine ⟨by decide, ?_⟩
  have h := (math2_alloc_node_round_robin math2_init .NODE_TEXT).2 1 (by decide)
  obtain ⟨k, h1, h2, h3, h4, h5, h6, h7, h8, h9⟩ := h
  exact ⟨k, h1, h2, h3, h4, h5, h6, by simpa using h7, h8, h9⟩

/-! ### C9: paren nesting depth and palette coloring -/

theorem draw_go_depth (e : math_expr2) (flag : Bool) :
    ∀ (fuel : Nat) (c : dcall) (d : Nat), (draw_go e flag fuel c d).2 = d := by
  intro fuel
  induction fuel with
  | zero => intro c d; rfl
  | succ n ih =>
    intro c d
    match c with
    | .seqp p =>
      cases p with
      | none => rfl
      | some s => simpa only [draw_go] using ih (.chain (seq_first (getNode e s))) d
    | .chain p =>
      cases p with
      | none => rfl
      | some c2 => simp only [draw_go]; rw [ih, ih]
    | .nodep i =>
      simp only [draw_go]
      split <;> (try split_ifs) <;> simp [ih]

/-- C9: during a draw with bracket coloring enabled every Paren node selects
the palette index `depth % NUM_PAREN_COLORS` at its entry depth, the depth
counter is incremented on entering a paren and decremented on leaving, and it
is balanced: after any draw it equals its starting value, so the top-level
draw (which begins at the counter's resting value 0) ends with the counter at
0 again.  Three nested parens are colored with palette indices 0, 1, 2 in
outer-to-inner order; six nested parens show the modulo-5 cycling
0, 1, 2, 3, 4, 0. -/
theorem paren_depth_coloring :
    (∀ (fuel : Nat) (e : math_expr2) (flag : Bool) (c : dcall) (d : Nat),
      (draw_go e flag fuel c d).2 = d) ∧
    (∀ (fuel : Nat) (e : math_expr2) (flag : Bool) (d0 : Nat),
      (math2_draw_events fuel e flag d0).2 = d0) ∧
    math2_draw_events 300 eParen3 true 0 = ([some 0, some 1, some 2], 0) ∧
    math2_draw_events 300 eParen6 true 0 =
      ([some 0, some 1, some 2, some 3, some 4, some 0], 0) := by
  refine ⟨fun fuel e flag c d => draw_go_depth e flag fuel c d,
    fun fuel e flag d0 => ?_, by decide, by decide⟩
  unfold math2_draw_events
  exact draw_go_depth e flag fuel _ d0

/-! ### C1: fraction collection with the cursor directly after an operator -/

/-- C1 (failing input): build 1, +, 2, move the cursor one step left so it
sits between the operator and the 2, then insert a fraction.  The code's
backward scan hits the operator at its very first step, sets collect_start to
the operator's successor — the node after the cursor — and the move loop then
drags that node (the digit 2) into the numerator, and the cursor lands in the
denominator slot.  The claim (and the function's own header comment,
"optionally collecting previous nodes as numerator") requires that only
siblings before the cursor can be collected, hence here nothing, with the
cursor landing in the numerator slot. -/
theorem math2_insert_fraction_operator_cursor_bug :
    readRoot 300 eC1_before =
      some (.cons (.text .TEXT_NUMBER "1") (.cons (.text .TEXT_OPERATOR "+")
        (.cons (.text .TEXT_NUMBER "2") .nil))) ∧
    eC1_before.cursor = { sequence := some 0, after := some 2 } ∧
    is_operator_node (getNode eC1_before 2) = true ∧
    readRoot 300 eC1_after =
      some (.cons (.text .TEXT_NUMBER "1") (.cons (.text .TEXT_OPERATOR "+")
        (.cons (.frac (.cons (.text .TEXT_NUMBER "2") .nil) .nil) .nil))) ∧
    eC1_after.cursor = { sequence := some 6, after := none } ∧
    frac_denom (getNode eC1_after 4) = some 6 ∧
    (getNode eC1_after 4).type = .NODE_FRACTION := by
  decide

/-! ### C2: digits 1, 2, 3 then a fraction -/

/-- C2 (counterexample): after typing 1, 2, 3 and inserting a fraction, the
new fraction node (slot 4) has a non-empty numerator and the cursor is not in
the numerator slot — refuting the claim that the numerator is empty with the
cursor inside it. -/
theorem insert_fraction_digits_not_empty_numerator :
    (getNode eC2 4).type = .NODE_FRACTION ∧
    seq_is_empty eC2 (frac_numer (getNode eC2 4)) = false ∧
    eC2.cursor.sequence ≠ frac_numer (getNode eC2 4) := by
  decide

/-- C2 (amended): typing the digits 1, 2, 3 and inserting a fraction collects
the maximal run — all three digits — into the numerator, leaves the
denominator empty, and puts the cursor at the start of the denominator
slot. -/
theorem insert_fraction_digits_collects_run :
    readRoot 300 eC2 =
      some (.cons (.frac (.cons (.text .TEXT_NUMBER "1") (.cons (.text .TEXT_NUMBER "2")
        (.cons (.text .TEXT_NUMBER "3") .nil))) .nil) .nil) ∧
    eC2.cursor = { sequence := some 6, after := none } ∧
    frac_denom (getNode eC2 4) = some 6 ∧
    eC2.cursor.after = none := by
  decide

/-! ### C5: serialization past MAX_LATEX is unchecked, not truncated -/

set_option maxRecDepth 10000

/-- C5 (counterexample): a pool-representable expression (69 text nodes of 15
characters) whose serialized output is longer than the MAX_LATEX buffer; the
serializer emits it whole — in the C code this is `strcat` past the end of
`latex[MAX_LATEX]` — rather than truncating to the buffer. -/
theorem latex_overflow_not_truncated :
    ¬ ((math2_to_latex 300 eC5).latex.length ≤ MAX_LATEX) := by
  decide

/-- C5 (amended): the serializer has no capacity check: it emits the full
recursive concatenation regardless of MAX_LATEX, and the concrete expression
eC5 produces 1035 bytes, exceeding the 1024-byte buffer, with no truncation
and no reported condition. -/
theorem latex_overflow_unchecked_write :
    (math2_to_latex 300 eC5).latex.length = 1035 ∧ MAX_LATEX < 1035 := by
  constructor
  · decide
  · decide

/-! ### Frame lemmas for the tree observation -/

theorem read_go_ne_empty (e : math_expr2) (fuel : Nat) (i : Nat) (t : MathTree)
    (h : read_go e fuel (.nodep i) = some t) : (getNode e i).type ≠ .NODE_EMPTY := by
  intro hE
  cases fuel with
  | zero => simp [read_go] at h
  | succ n => simp [read_go, hE] at h

theorem read_go_frame (e e2 : math_expr2)
    (hag : ∀ j, (getNode e j).type ≠ .NODE_EMPTY → getNode e2 j = getNode e j) :
    ∀ (fuel : Nat) (c : rcall) (t : MathTree),
      read_go e fuel c = some t → read_go e2 fuel c = some t := by
  intro fuel
  induction fuel with
  | zero => intro c t h; simp [read_go] at h
  | succ n ih =>
    intro c t h
    match c with
    | .chain none => simpa [read_go] using h
    | .chain (some c2) =>
      have hne : (getNode e c2).type ≠ .NODE_EMPTY := by
        rcases hx : read_go e n (.nodep c2) with _ | t1
        · rw [read_go] at h; rw [hx] at h; simp at h
        · exact read_go_ne_empty e n c2 t1 hx
      have heq : getNode e2 c2 = getNode e c2 := hag c2 hne
      rw [read_go] at h ⊢
      rw [heq]
      simp only [Option.bind_eq_some, Option.map_eq_some'] at h ⊢
      obtain ⟨t1, h1, rest, h2, rfl⟩ := h
      exact ⟨t1, ih _ _ h1, rest, ih _ _ h2, rfl⟩
    | .nodep i =>
      have hne : (getNode e i).type ≠ .NODE_EMPTY := read_go_ne_empty e (n + 1) i t h
      have heq : getNode e2 i = getNode e i := hag i hne
      rw [read_go] at h ⊢
      rw [heq]
      cases hty : (getNode e i).type <;> simp only [hty] at h <;>
        try exact Option.noConfusion h
      case NODE_SEQUENCE =>
        rcases hdata : (getNode e i).data with ⟨first, last⟩ | _ | _ | _ | _ | _ | _ | _ | _ | _ | _ <;>
          simp only [hdata] at h <;> try exact Option.noConfusion h
        exact ih _ _ h
      case NODE_TEXT =>
        rcases hdata : (getNode e i).data with _ | ⟨st, str⟩ | _ | _ | _ | _ | _ | _ | _ | _ | _ <;>
          simp only [hdata] at h <;> try exact Option.noConfusion h
        exact h
      case NODE_FRACTION =>
        rcases hdata : (getNode e i).data with _ | _ | ⟨nu, de⟩ | _ | _ | _ | _ | _ | _ | _ | _ <;>
          simp only [hdata] at h <;> try exact Option.noConfusion h
        rcases nu with _ | nu <;> rcases de with _ | de <;> dsimp only at h <;>
          try exact Option.noConfusion h
        simp only [Option.bind_eq_some, Option.map_eq_some'] at h
        obtain ⟨a, ha, b, hb, rfl⟩ := h
        exact Option.bind_eq_some.mpr
          ⟨a, ih _ _ ha, Option.map_eq_some'.mpr ⟨b, ih _ _ hb, rfl⟩⟩
      case NODE_EXPONENT =>
        rcases hdata : (getNode e i).data with _ | _ | _ | ⟨b, pw⟩ | _ | _ | _ | _ | _ | _ | _ <;>
          simp only [hdata] at h <;> try exact Option.noConfusion h
        rcases b with _ | b <;> rcases pw with _ | pw <;> dsimp only at h <;>
          try exact Option.noConfusion h
        simp only [Option.bind_eq_some, Option.map_eq_some'] at h
        obtain ⟨a, ha, b2, hb, rfl⟩ := h
        exact Option.bind_eq_some.mpr
          ⟨a, ih _ _ ha, Option.map_eq_some'.mpr ⟨b2, ih _ _ hb, rfl⟩⟩
      case NODE_SUBSCRIPT =>
        rcases hdata : (getNode e i).data with _ | _ | _ | _ | ⟨b, sb⟩ | _ | _ | _ | _ | _ | _ <;>
          simp only [hdata] at h <;> try exact Option.noConfusion h
        rcases b with _ | b <;> rcases sb with _ | sb <;> dsimp only at h <;>
          try exact Option.noConfusion h
        simp only [Option.bind_eq_some, Option.map_eq_some'] at h
        obtain ⟨a, ha, b2, hb, rfl⟩ := h
        exact Option.bind_eq_some.mpr
          ⟨a, ih _ _ ha, Option.map_eq_some'.mpr ⟨b2, ih _ _ hb, rfl⟩⟩
      case NODE_ROOT =>
        rcases hdata : (getNode e i).data with _ | _ | _ | _ | _ | ⟨ix, c⟩ | _ | _ | _ | _ | _ <;>
          simp only [hdata] at h <;> try exact Option.noConfusion h
        rcases c with _ | c <;> dsimp only at h <;> try exact Option.noConfusion h
        simp only [Option.map_eq_some'] at h
        obtain ⟨a, ha, rfl⟩ := h
        exact Option.map_eq_some'.mpr ⟨a, ih _ _ ha, rfl⟩
      case NODE_NTHROOT =>
        rcases hdata : (getNode e i).data with _ | _ | _ | _ | _ | _ | ⟨ix, c⟩ | _ | _ | _ | _ <;>
          simp only [hdata] at h <;> try exact Option.noConfusion h
        rcases ix with _ | ix <;> rcases c with _ | c <;> dsimp only at h <;>
          try exact Option.noConfusion h
        simp only [Option.bind_eq_some, Option.map_eq_some'] at h
        obtain ⟨a, ha, b2, hb, rfl⟩ := h
        exact Option.bind_eq_some.mpr
          ⟨a, ih _ _ ha, Option.map_eq_some'.mpr ⟨b2, ih _ _ hb, rfl⟩⟩
      case NODE_MIXED_FRAC =>
        rcases hdata : (getNode e i).data with _ | _ | _ | _ | _ | _ | _ | ⟨w, nu, de⟩ | _ | _ | _ <;>
          simp only [hdata] at h <;> try exact Option.noConfusion h
        rcases w with _ | w <;> rcases nu with _ | nu <;> rcases de with _ | de <;>
          dsimp only at h <;> try exact Option.noConfusion h
        simp only [Option.bind_eq_some, Option.map_eq_some'] at h
        obtain ⟨a, ha, b2, hb, c2, hc, rfl⟩ := h
        exact Option.bind_eq_some.mpr ⟨a, ih _ _ ha, Option.bind_eq_some.mpr
          ⟨b2, ih _ _ hb, Option.map_eq_some'.mpr ⟨c2, ih _ _ hc, rfl⟩⟩⟩
      case NODE_ABS =>
        rcases hdata : (getNode e i).data with _ | _ | _ | _ | _ | _ | _ | _ | ⟨c⟩ | _ | _ <;>
          simp only [hdata] at h <;> try exact Option.noConfusion h
        rcases c with _ | c <;> dsimp only at h <;> try exact Option.noConfusion h
        simp only [Option.map_eq_some'] at h
        obtain ⟨a, ha, rfl⟩ := h
        exact Option.map_eq_some'.mpr ⟨a, ih _ _ ha, rfl⟩
      case NODE_PAREN =>
        rcases hdata : (getNode e i).data with _ | _ | _ | _ | _ | _ | _ | _ | _ | ⟨c⟩ | _ <;>
          simp only [hdata] at h <;> try exact Option.noConfusion h
        rcases c with _ | c <;> dsimp only at h <;> try exact Option.noConfusion h
        simp only [Option.map_eq_some'] at h
        obtain ⟨a, ha, rfl⟩ := h
        exact Option.map_eq_some'.mpr ⟨a, ih _ _ ha, rfl⟩
      case NODE_FUNCTION =>
        rcases hdata : (getNode e i).data with _ | _ | _ | _ | _ | _ | _ | _ | _ | _ | ⟨nm, a⟩ <;>
          simp only [hdata] at h <;> try exact Option.noConfusion h
        rcases a with _ | a <;> dsimp only at h <;> try exact Option.noConfusion h
        simp only [Option.map_eq_some'] at h
        obtain ⟨b2, hb, rfl⟩ := h
        exact Option.map_eq_some'.mpr ⟨b2, ih _ _ hb, rfl⟩

/-! ### Pool extension and capacity accounting -/

theorem poolExt_refl (e : math_expr2) : poolExt e e :=
  ⟨fun _ _ => rfl, rfl, rfl⟩

theorem poolExt_trans {e0 e1 e2 : math_expr2} (h1 : poolExt e0 e1) (h2 : poolExt e1 e2) :
    poolExt e0 e2 := by
  obtain ⟨a1, r1, c1⟩ := h1
  obtain ⟨a2, r2, c2⟩ := h2
  refine ⟨fun j hj => ?_, r2.trans r1, c2.trans c1⟩
  have h1j := a1 j hj
  have hlive1 : (getNode e1 j).type ≠ .NODE_EMPTY := by rw [h1j]; exact hj
  rw [a2 j hlive1, h1j]

theorem poolExt_updNode {e0 e : math_expr2} (h : poolExt e0 e) (i : Nat)
    (hE : (getNode e0 i).type = .NODE_EMPTY) (f : expr_node → expr_node) :
    poolExt e0 (updNode e i f) := by
  obtain ⟨ha, hr, hc⟩ := h
  refine ⟨fun j hj => ?_, hr, hc⟩
  have hji : j ≠ i := fun hji => by rw [hji] at hj; exact hj hE
  rw [getNode_updNode_ne e i j f hji]
  exact ha j hj

theorem poolExt_readRoot {e e2 : math_expr2} (h : poolExt e e2) (fuel : Nat) (t : MathTree)
    (hr : readRoot fuel e = some t) : readRoot fuel e2 = some t := by
  obtain ⟨ha, hroot, _⟩ := h
  unfold readRoot at hr ⊢
  rw [hroot]
  cases hR : e.root with
  | none => rw [hR] at hr; exact absurd hr (by simp)
  | some r =>
    rw [hR] at hr
    exact read_go_frame e e2 ha fuel _ t hr

theorem emptyCount_zero_iff (e : math_expr2) :
    emptyCount e = 0 ↔ ∀ i, i < MAX_NODES → (getNode e i).type ≠ .NODE_EMPTY := by
  unfold emptyCount
  rw [Finset.card_eq_zero, Finset.filter_eq_empty_iff]
  constructor
  · intro h i hi
    exact h (Finset.mem_range.mpr hi)
  · intro h i hi
    exact h i (Finset.mem_range.mp hi)

theorem emptyCount_pos_of_empty (e : math_expr2) (i : Nat) (hi : i < MAX_NODES)
    (hE : (getNode e i).type = .NODE_EMPTY) : 0 < emptyCount e := by
  unfold emptyCount
  rw [Finset.card_pos]
  exact ⟨i, Finset.mem_filter.mpr ⟨Finset.mem_range.mpr hi, hE⟩⟩

theorem alloc_fails_of_no_capacity (e : math_expr2) (ty : node_type_t)
    (h : emptyCount e = 0) : math2_alloc_node e ty = (e, none) := by
  apply math2_alloc_node_eq_none
  cases hscan : scan_from e 0 MAX_NODES with
  | none => rfl
  | some idx =>
    obtain ⟨k, hk, heq, hempty, _⟩ := scan_from_some_spec MAX_NODES 0 e idx hscan
    have hlt : idx < MAX_NODES := by
      rw [heq]; exact Nat.mod_lt _ (by decide)
    exact absurd hempty ((emptyCount_zero_iff e).mp h idx hlt)

theorem new_sequence_fails_of_no_capacity (e : math_expr2) (h : emptyCount e = 0) :
    math2_new_sequence e = (e, none) := by
  unfold math2_new_sequence
  rw [alloc_fails_of_no_capacity e .NODE_SEQUENCE h]

theorem alloc_some_facts (e : math_expr2) (ty : node_type_t) (e2 : math_expr2) (idx : Nat)
    (h : math2_alloc_node e ty = (e2, some idx)) :
    (getNode e idx).type = .NODE_EMPTY ∧ idx < MAX_NODES ∧
    (∀ j, j ≠ idx → getNode e2 j = getNode e j) ∧
    getNode e2 idx =
      { type := ty, parent := none, next := none, prev := none, data := zero_data ty } ∧
    e2.root = e.root ∧ e2.cursor = e.cursor := by
  cases hscan : scan_from e 0 MAX_NODES with
  | none => rw [math2_alloc_node_eq_none e ty hscan] at h; exact absurd h (by simp)
  | some idx2 =>
    rw [math2_alloc_node_eq_some e ty idx2 hscan] at h
    obtain ⟨k, hk, heq, hempty, _⟩ := scan_from_some_spec MAX_NODES 0 e idx2 hscan
    rw [Prod.mk.injEq] at h
    obtain ⟨he2, hsome⟩ := h
    have hidx : idx2 = idx := Option.some.inj hsome
    subst hidx
    subst he2
    refine ⟨hempty, ?_, fun j hj => getNode_setNode_ne e idx2 j _ hj,
      getNode_setNode_self e idx2 _, rfl, rfl⟩
    rw [heq, Nat.zero_add]
    exact Nat.mod_lt _ (by decide)

theorem emptyCount_updNode_type_preserved (e : math_expr2) (i : Nat)
    (f : expr_node → expr_node) (h : (f (getNode e i)).type = (getNode e i).type) :
    emptyCount (updNode e i f) = emptyCount e := by
  unfold emptyCount
  congr 1
  apply Finset.filter_congr
  intro j _
  by_cases hji : j = i
  · subst hji
    rw [getNode_updNode_self, h]
  · rw [getNode_updNode_ne e i j f hji]

theorem emptyCount_alloc_some (e : math_expr2) (ty : node_type_t) (e2 : math_expr2)
    (idx : Nat) (hty : ty ≠ .NODE_EMPTY)
    (h : math2_alloc_node e ty = (e2, some idx)) :
    emptyCount e2 = emptyCount e - 1 := by
  obtain ⟨hempty, hlt, hother, hself, _, _⟩ := alloc_some_facts e ty e2 idx h
  unfold emptyCount
  have hset : (Finset.range MAX_NODES).filter (fun i => (getNode e2 i).type = .NODE_EMPTY) =
      ((Finset.range MAX_NODES).filter (fun i => (getNode e i).type = .NODE_EMPTY)).erase idx := by
    ext j
    simp only [Finset.mem_filter, Finset.mem_erase, Finset.mem_range]
    constructor
    · intro ⟨hj, hJE⟩
      by_cases hji : j = idx
      · subst hji
        rw [hself] at hJE
        exact absurd hJE hty
      · rw [hother j hji] at hJE
        exact ⟨hji, hj, hJE⟩
    · intro ⟨hji, hj, hJE⟩
      rw [hother j hji]
      exact ⟨hj, hJE⟩
  rw [hset]
  rw [Finset.card_erase_of_mem
    (Finset.mem_filter.mpr ⟨Finset.mem_range.mpr hlt, hempty⟩)]

theorem alloc_some_emptyCount_pos (e : math_expr2) (ty : node_type_t) (e2 : math_expr2)
    (idx : Nat) (h : math2_alloc_node e ty = (e2, some idx)) : 0 < emptyCount e := by
  obtain ⟨hempty, hlt, _, _, _, _⟩ := alloc_some_facts e ty e2 idx h
  exact emptyCount_pos_of_empty e idx hlt hempty

theorem alloc_some_poolExt (e : math_expr2) (ty : node_type_t) (e2 : math_expr2)
    (idx : Nat) (h : math2_alloc_node e ty = (e2, some idx)) :
    poolExt e e2 ∧ (getNode e idx).type = .NODE_EMPTY := by
  obtain ⟨hempty, hlt, hother, hself, hroot, hcursor⟩ := alloc_some_facts e ty e2 idx h
  refine ⟨⟨fun j hj => ?_, hroot, hcursor⟩, hempty⟩
  have hji : j ≠ idx := fun hji => by rw [hji] at hj; exact hj hempty
  exact hother j hji

theorem alloc_none_emptyCount (e : math_expr2) (ty : node_type_t) (e2 : math_expr2)
    (h : math2_alloc_node e ty = (e2, none)) : e2 = e ∧ emptyCount e = 0 := by
  cases hscan : scan_from e 0 MAX_NODES with
  | some idx =>
    rw [math2_alloc_node_eq_some e ty idx hscan] at h
    exact absurd (congrArg Prod.snd h) (by simp)
  | none =>
    rw [math2_alloc_node_eq_none e ty hscan] at h
    refine ⟨(Prod.mk.inj h).1.symm ▸ rfl, ?_⟩
    rw [emptyCount_zero_iff]
    intro i hi
    obtain ⟨j, hj, hcov⟩ := probe_coverage e.next_free i hi
    have hne := scan_from_none_spec MAX_NODES 0 e hscan j hj
    rw [Nat.zero_add] at hne
    rw [hcov] at hne
    exact hne

theorem new_sequence_none (e : math_expr2) (e2 : math_expr2)
    (h : math2_new_sequence e = (e2, none)) : e2 = e ∧ emptyCount e = 0 := by
  unfold math2_new_sequence at h
  rcases halloc : math2_alloc_node e .NODE_SEQUENCE with ⟨e1, p⟩
  rw [halloc] at h
  cases p with
  | none =>
    obtain ⟨he1, hc⟩ := alloc_none_emptyCount e .NODE_SEQUENCE e1 halloc
    dsimp only at h
    exact ⟨(Prod.mk.inj h).1.symm.trans he1, hc⟩
  | some s =>
    dsimp only at h
    exact absurd (congrArg Prod.snd h) (by simp)

theorem new_sequence_some (e : math_expr2) (e2 : math_expr2) (idx : Nat)
    (h : math2_new_sequence e = (e2, some idx)) :
    poolExt e e2 ∧ (getNode e idx).type = .NODE_EMPTY ∧
    emptyCount e2 = emptyCount e - 1 ∧ 0 < emptyCount e := by
  unfold math2_new_sequence at h
  rcases halloc : math2_alloc_node e .NODE_SEQUENCE with ⟨e1, p⟩
  rw [halloc] at h
  cases p with
  | none =>
    dsimp only at h
    exact absurd (congrArg Prod.snd h) (by simp)
  | some s =>
    dsimp only at h
    rw [Prod.mk.injEq] at h
    obtain ⟨he2, hsome⟩ := h
    have hidx : s = idx := Option.some.inj hsome
    subst hidx
    subst he2
    obtain ⟨hpe, hempty⟩ := alloc_some_poolExt e _ e1 s halloc
    have hcount := emptyCount_alloc_some e _ e1 s (by decide) halloc
    have hpos := alloc_some_emptyCount_pos e _ e1 s halloc
    refine ⟨poolExt_updNode hpe s ?_ _, hempty, ?_, hpos⟩
    · exact hempty
    · rw [emptyCount_updNode_type_preserved e1 s _ rfl]
      exact hcount

theorem empty_transfer {e0 e : math_expr2} (hpe : poolExt e0 e) (idx : Nat)
    (h : (getNode e idx).type = .NODE_EMPTY) : (getNode e0 idx).type = .NODE_EMPTY := by
  by_contra hlive
  rw [hpe.1 idx hlive] at h
  exact hlive h

theorem with_frac_numer_type (v : Option Nat) (n : expr_node) :
    (with_frac_numer v n).type = n.type := by
  unfold with_frac_numer
  split <;> rfl

theorem with_frac_denom_type (v : Option Nat) (n : expr_node) :
    (with_frac_denom v n).type = n.type := by
  unfold with_frac_denom
  split <;> rfl

theorem with_exp_base_type (v : Option Nat) (n : expr_node) :
    (with_exp_base v n).type = n.type := by
  unfold with_exp_base
  split <;> rfl

theorem with_exp_power_type (v : Option Nat) (n : expr_node) :
    (with_exp_power v n).type = n.type := by
  unfold with_exp_power
  split <;> rfl

theorem with_sub_base_type (v : Option Nat) (n : expr_node) :
    (with_sub_base v n).type = n.type := by
  unfold with_sub_base
  split <;> rfl

theorem with_sub_sub_type (v : Option Nat) (n : expr_node) :
    (with_sub_sub v n).type = n.type := by
  unfold with_sub_sub
  split <;> rfl

theorem with_root_index_type (v : Int) (n : expr_node) :
    (with_root_index v n).type = n.type := by
  unfold with_root_index
  split <;> rfl

theorem with_nthroot_index_type (v : Option Nat) (n : expr_node) :
    (with_nthroot_index v n).type = n.type := by
  unfold with_nthroot_index
  split <;> rfl

theorem with_mixed_whole_type (v : Option Nat) (n : expr_node) :
    (with_mixed_whole v n).type = n.type := by
  unfold with_mixed_whole
  split <;> rfl

theorem with_mixed_numer_type (v : Option Nat) (n : expr_node) :
    (with_mixed_numer v n).type = n.type := by
  unfold with_mixed_numer
  split <;> rfl

theorem with_func_name_type (v : String) (n : expr_node) :
    (with_func_name v n).type = n.type := by
  unfold with_func_name
  split <;> rfl

/-! ### C4: insertion operations no-op on pool exhaustion -/

theorem insert_text_noop (e0 : math_expr2) (st : text_type_t) (s : String)
    (h : emptyCount e0 < 1) : poolExt e0 (math2_insert_text e0 st s) := by
  unfold math2_insert_text
  rcases halloc : math2_alloc_node e0 .NODE_TEXT with ⟨e1, p⟩
  try simp only [halloc]
  try dsimp only
  cases p with
  | none =>
    obtain ⟨he1, _⟩ := alloc_none_emptyCount e0 .NODE_TEXT e1 halloc
    rw [he1]
    exact poolExt_refl e0
  | some nd =>
    have hpos := alloc_some_emptyCount_pos e0 _ e1 nd halloc
    omega

theorem insert_fraction_noop (e0 : math_expr2) (h : emptyCount e0 < 3) :
    poolExt e0 (math2_insert_fraction e0) := by
  unfold math2_insert_fraction
  rcases halloc : math2_alloc_node e0 .NODE_FRACTION with ⟨e1, p1⟩
  try simp only [halloc]
  try dsimp only
  cases p1 with
  | none =>
    obtain ⟨he1, _⟩ := alloc_none_emptyCount e0 .NODE_FRACTION e1 halloc
    rw [he1]
    exact poolExt_refl e0
  | some frac =>
    obtain ⟨hpe1, hx0⟩ := alloc_some_poolExt e0 _ e1 frac halloc
    have hpos := alloc_some_emptyCount_pos e0 _ e1 frac halloc
    have hc1 : emptyCount e1 = emptyCount e0 - 1 :=
      emptyCount_alloc_some e0 _ e1 frac (by decide) halloc
    rcases hseq1 : math2_new_sequence e1 with ⟨e2, p2⟩
    try simp only [hseq1]
    try dsimp only
    cases p2 with
    | none =>
      obtain ⟨he2, hc1z⟩ := new_sequence_none e1 e2 hseq1
      subst he2
      have hpe2b : poolExt e0 (updNode e2 frac (with_frac_numer none)) :=
        poolExt_updNode hpe1 frac hx0 _
      have hc2b : emptyCount (updNode e2 frac (with_frac_numer none)) = 0 := by
        rw [emptyCount_updNode_type_preserved e2 frac _ (with_frac_numer_type _ _)]
        exact hc1z
      rcases hseq2 : math2_new_sequence (updNode e2 frac (with_frac_numer none)) with ⟨e3, p3⟩
      try simp only [hseq2]
      try dsimp only
      cases p3 with
      | none =>
        obtain ⟨he3, _⟩ := new_sequence_none _ e3 hseq2
        subst he3
        exact poolExt_updNode hpe2b frac hx0 _
      | some q3 =>
        obtain ⟨_, _, _, hposd⟩ := new_sequence_some _ e3 q3 hseq2
        omega
    | some q2 =>
      obtain ⟨hpe2, hq2, hc2, _⟩ := new_sequence_some e1 e2 q2 hseq1
      have hpe2c : poolExt e0 e2 := poolExt_trans hpe1 hpe2
      have hpe2b : poolExt e0 (updNode e2 frac (with_frac_numer (some q2))) :=
        poolExt_updNode hpe2c frac hx0 _
      have hc2b : emptyCount (updNode e2 frac (with_frac_numer (some q2))) = 0 := by
        rw [emptyCount_updNode_type_preserved e2 frac _ (with_frac_numer_type _ _)]
        omega
      rcases hseq2 : math2_new_sequence (updNode e2 frac (with_frac_numer (some q2))) with ⟨e3, p3⟩
      try simp only [hseq2]
      try dsimp only
      cases p3 with
      | some q3 =>
        obtain ⟨_, _, _, hposd⟩ := new_sequence_some _ e3 q3 hseq2
        omega
      | none =>
        obtain ⟨he3, _⟩ := new_sequence_none _ e3 hseq2
        subst he3
        exact poolExt_updNode hpe2b frac hx0 _

theorem insert_exponent_noop (e0 : math_expr2) (h : emptyCount e0 < 3) :
    poolExt e0 (math2_insert_exponent e0) := by
  unfold math2_insert_exponent
  rcases halloc : math2_alloc_node e0 .NODE_EXPONENT with ⟨e1, p1⟩
  try simp only [halloc]
  try dsimp only
  cases p1 with
  | none =>
    obtain ⟨he1, _⟩ := alloc_none_emptyCount e0 .NODE_EXPONENT e1 halloc
    rw [he1]
    exact poolExt_refl e0
  | some x =>
    obtain ⟨hpe1, hx0⟩ := alloc_some_poolExt e0 _ e1 x halloc
    have hpos := alloc_some_emptyCount_pos e0 _ e1 x halloc
    have hc1 : emptyCount e1 = emptyCount e0 - 1 :=
      emptyCount_alloc_some e0 _ e1 x (by decide) halloc
    rcases hseq1 : math2_new_sequence e1 with ⟨e2, p2⟩
    try simp only [hseq1]
    try dsimp only
    cases p2 with
    | none =>
      obtain ⟨he2, hc1z⟩ := new_sequence_none e1 e2 hseq1
      subst he2
      have hpe2b : poolExt e0 (updNode e2 x (with_exp_base none)) :=
        poolExt_updNode hpe1 x hx0 _
      have hc2b : emptyCount (updNode e2 x (with_exp_base none)) = 0 := by
        rw [emptyCount_updNode_type_preserved e2 x _ (with_exp_base_type _ _)]
        exact hc1z
      rcases hseq2 : math2_new_sequence (updNode e2 x (with_exp_base none)) with ⟨e3, p3⟩
      try simp only [hseq2]
      try dsimp only
      cases p3 with
      | none =>
        obtain ⟨he3, _⟩ := new_sequence_none _ e3 hseq2
        subst he3
        exact poolExt_updNode hpe2b x hx0 _
      | some q3 =>
        obtain ⟨_, _, _, hposd⟩ := new_sequence_some _ e3 q3 hseq2
        omega
    | some q2 =>
      obtain ⟨hpe2, hq2, hc2, _⟩ := new_sequence_some e1 e2 q2 hseq1
      have hpe2c : poolExt e0 e2 := poolExt_trans hpe1 hpe2
      have hpe2b : poolExt e0 (updNode e2 x (with_exp_base (some q2))) :=
        poolExt_updNode hpe2c x hx0 _
      have hc2b : emptyCount (updNode e2 x (with_exp_base (some q2))) = 0 := by
        rw [emptyCount_updNode_type_preserved e2 x _ (with_exp_base_type _ _)]
        omega
      rcases hseq2 : math2_new_sequence (updNode e2 x (with_exp_base (some q2))) with ⟨e3, p3⟩
      try simp only [hseq2]
      try dsimp only
      cases p3 with
      | some q3 =>
        obtain ⟨_, _, _, hposd⟩ := new_sequence_some _ e3 q3 hseq2
        omega
      | none =>
        obtain ⟨he3, _⟩ := new_sequence_none _ e3 hseq2
        subst he3
        exact poolExt_updNode hpe2b x hx0 _

theorem insert_subscript_noop (e0 : math_expr2) (h : emptyCount e0 < 3) :
    poolExt e0 (math2_insert_subscript e0) := by
  unfold math2_insert_subscript
  rcases halloc : math2_alloc_node e0 .NODE_SUBSCRIPT with ⟨e1, p1⟩
  try simp only [halloc]
  try dsimp only
  cases p1 with
  | none =>
    obtain ⟨he1, _⟩ := alloc_none_emptyCount e0 .NODE_SUBSCRIPT e1 halloc
    rw [he1]
    exact poolExt_refl e0
  | some x =>
    obtain ⟨hpe1, hx0⟩ := alloc_some_poolExt e0 _ e1 x halloc
    have hpos := alloc_some_emptyCount_pos e0 _ e1 x halloc
    have hc1 : emptyCount e1 = emptyCount e0 - 1 :=
      emptyCount_alloc_some e0 _ e1 x (by decide) halloc
    rcases hseq1 : math2_new_sequence e1 with ⟨e2, p2⟩
    try simp only [hseq1]
    try dsimp only
    cases p2 with
    | none =>
      obtain ⟨he2, hc1z⟩ := new_sequence_none e1 e2 hseq1
      subst he2
      have hpe2b : poolExt e0 (updNode e2 x (with_sub_base none)) :=
        poolExt_updNode hpe1 x hx0 _
      have hc2b : emptyCount (updNode e2 x (with_sub_base none)) = 0 := by
        rw [emptyCount_updNode_type_preserved e2 x _ (with_sub_base_type _ _)]
        exact hc1z
      rcases hseq2 : math2_new_sequence (updNode e2 x (with_sub_base none)) with ⟨e3, p3⟩
      try simp only [hseq2]
      try dsimp only
      cases p3 with
      | none =>
        obtain ⟨he3, _⟩ := new_sequence_none _ e3 hseq2
        subst he3
        exact poolExt_updNode hpe2b x hx0 _
      | some q3 =>
        obtain ⟨_, _, _, hposd⟩ := new_sequence_some _ e3 q3 hseq2
        omega
    | some q2 =>
      obtain ⟨hpe2, hq2, hc2, _⟩ := new_sequence_some e1 e2 q2 hseq1
      have hpe2c : poolExt e0 e2 := poolExt_trans hpe1 hpe2
      have hpe2b : poolExt e0 (updNode e2 x (with_sub_base (some q2))) :=
        poolExt_updNode hpe2c x hx0 _
      have hc2b : emptyCount (updNode e2 x (with_sub_base (some q2))) = 0 := by
        rw [emptyCount_updNode_type_preserved e2 x _ (with_sub_base_type _ _)]
        omega
      rcases hseq2 : math2_new_sequence (updNode e2 x (with_sub_base (some q2))) with ⟨e3, p3⟩
      try simp only [hseq2]
      try dsimp only
      cases p3 with
      | some q3 =>
        obtain ⟨_, _, _, hposd⟩ := new_sequence_some _ e3 q3 hseq2
        omega
      | none =>
        obtain ⟨he3, _⟩ := new_sequence_none _ e3 hseq2
        subst he3
        exact poolExt_updNode hpe2b x hx0 _

theorem insert_xthroot_noop (e0 : math_expr2) (h : emptyCount e0 < 3) :
    poolExt e0 (math2_insert_xthroot e0) := by
  unfold math2_insert_xthroot
  rcases halloc : math2_alloc_node e0 .NODE_NTHROOT with ⟨e1, p1⟩
  try simp only [halloc]
  try dsimp only
  cases p1 with
  | none =>
    obtain ⟨he1, _⟩ := alloc_none_emptyCount e0 .NODE_NTHROOT e1 halloc
    rw [he1]
    exact poolExt_refl e0
  | some rt =>
    obtain ⟨hpe1, hx0⟩ := alloc_some_poolExt e0 _ e1 rt halloc
    have hpos := alloc_some_emptyCount_pos e0 _ e1 rt halloc
    have hc1 : emptyCount e1 = emptyCount e0 - 1 :=
      emptyCount_alloc_some e0 _ e1 rt (by decide) halloc
    rcases hseq1 : math2_new_sequence e1 with ⟨e2, p2⟩
    try simp only [hseq1]
    try dsimp only
    cases p2 with
    | none =>
      obtain ⟨he2, hc1z⟩ := new_sequence_none e1 e2 hseq1
      subst he2
      have hpe2b : poolExt e0 (updNode e2 rt (with_nthroot_index none)) :=
        poolExt_updNode hpe1 rt hx0 _
      have hc2b : emptyCount (updNode e2 rt (with_nthroot_index none)) = 0 := by
        rw [emptyCount_updNode_type_preserved e2 rt _ (with_nthroot_index_type _ _)]
        exact hc1z
      rcases hseq2 : math2_new_sequence (updNode e2 rt (with_nthroot_index none)) with ⟨e3, p3⟩
      try simp only [hseq2]
      try dsimp only
      cases p3 with
      | none =>
        obtain ⟨he3, _⟩ := new_sequence_none _ e3 hseq2
        subst he3
        exact poolExt_updNode hpe2b rt hx0 _
      | some q3 =>
        obtain ⟨_, _, _, hposd⟩ := new_sequence_some _ e3 q3 hseq2
        omega
    | some q2 =>
      obtain ⟨hpe2, hq2, hc2, _⟩ := new_sequence_some e1 e2 q2 hseq1
      have hpe2c : poolExt e0 e2 := poolExt_trans hpe1 hpe2
      have hpe2b : poolExt e0 (updNode e2 rt (with_nthroot_index (some q2))) :=
        poolExt_updNode hpe2c rt hx0 _
      have hc2b : emptyCount (updNode e2 rt (with_nthroot_index (some q2))) = 0 := by
        rw [emptyCount_updNode_type_preserved e2 rt _ (with_nthroot_index_type _ _)]
        omega
      rcases hseq2 : math2_new_sequence (updNode e2 rt (with_nthroot_index (some q2))) with ⟨e3, p3⟩
      try simp only [hseq2]
      try dsimp only
      cases p3 with
      | some q3 =>
        obtain ⟨_, _, _, hposd⟩ := new_sequence_some _ e3 q3 hseq2
        omega
      | none =>
        obtain ⟨he3, _⟩ := new_sequence_none _ e3 hseq2
        subst he3
        exact poolExt_updNode hpe2b rt hx0 _

theorem insert_nthroot_noop (e0 : math_expr2) (n : Int) (h : emptyCount e0 < 2) :
    poolExt e0 (math2_insert_nthroot e0 n) := by
  unfold math2_insert_nthroot
  rcases halloc : math2_alloc_node e0 .NODE_ROOT with ⟨e1, rootP⟩
  try simp only [halloc]
  try dsimp only
  cases rootP with
  | none =>
    obtain ⟨he1, _⟩ := alloc_none_emptyCount e0 .NODE_ROOT e1 halloc
    rw [he1]
    exact poolExt_refl e0
  | some rt =>
    obtain ⟨hpe1, hrt0⟩ := alloc_some_poolExt e0 _ e1 rt halloc
    have hpos := alloc_some_emptyCount_pos e0 _ e1 rt halloc
    have hc1 : emptyCount e1 = emptyCount e0 - 1 :=
      emptyCount_alloc_some e0 _ e1 rt (by decide) halloc
    have hc2 : emptyCount (updNode e1 rt (with_root_index n)) = emptyCount e1 :=
      emptyCount_updNode_type_preserved e1 rt _ (with_root_index_type _ _)
    rcases hseq1 : math2_new_sequence (updNode e1 rt (with_root_index n)) with ⟨e3, contentP⟩
    try simp only [hseq1]
    try dsimp only
    cases contentP with
    | none =>
      obtain ⟨he3, _⟩ := new_sequence_none _ e3 hseq1
      subst he3
      exact poolExt_updNode (poolExt_updNode hpe1 rt hrt0 _) rt hrt0 _
    | some content =>
      obtain ⟨_, _, _, hposc⟩ := new_sequence_some _ e3 content hseq1
      omega

theorem insert_mixed_frac_noop (e0 : math_expr2) (h : emptyCount e0 < 4) :
    poolExt e0 (math2_insert_mixed_frac e0) := by
  unfold math2_insert_mixed_frac
  rcases halloc : math2_alloc_node e0 .NODE_MIXED_FRAC with ⟨e1, mfP⟩
  try simp only [halloc]
  try dsimp only
  cases mfP with
  | none =>
    obtain ⟨he1, _⟩ := alloc_none_emptyCount e0 .NODE_MIXED_FRAC e1 halloc
    rw [he1]
    exact poolExt_refl e0
  | some mf =>
    obtain ⟨hpe1, hmf0⟩ := alloc_some_poolExt e0 _ e1 mf halloc
    have hpos := alloc_some_emptyCount_pos e0 _ e1 mf halloc
    have hc1 : emptyCount e1 = emptyCount e0 - 1 :=
      emptyCount_alloc_some e0 _ e1 mf (by decide) halloc
    rcases hseq1 : math2_new_sequence e1 with ⟨e2, wholeP⟩
    try simp only [hseq1]
    try dsimp only
    have hwc : ∀ v, emptyCount (updNode e2 mf (with_mixed_whole v)) = emptyCount e2 :=
      fun v => emptyCount_updNode_type_preserved e2 mf _ (with_mixed_whole_type _ _)
    have hpe2w : poolExt e0 e2 → ∀ v, poolExt e0 (updNode e2 mf (with_mixed_whole v)) :=
      fun hp v => poolExt_updNode hp mf hmf0 _
    have hcw : emptyCount e2 ≤ emptyCount e0 - 1 ∧ poolExt e0 e2 := by
      cases wholeP with
      | none =>
        obtain ⟨he2, hcz⟩ := new_sequence_none e1 e2 hseq1
        subst he2
        exact ⟨by omega, hpe1⟩
      | some w =>
        obtain ⟨hpe2, _, hc2, _⟩ := new_sequence_some e1 e2 w hseq1
        exact ⟨by omega, poolExt_trans hpe1 hpe2⟩
    rcases hseq2 : math2_new_sequence (updNode e2 mf (with_mixed_whole wholeP))
      with ⟨e3, numerP⟩
    try simp only [hseq2]
    try dsimp only
    have hnc : ∀ v, emptyCount (updNode e3 mf (with_mixed_numer v)) = emptyCount e3 :=
      fun v => emptyCount_updNode_type_preserved e3 mf _ (with_mixed_numer_type _ _)
    have hcn : emptyCount e3 ≤ emptyCount e0 - 1 ∧ poolExt e0 e3 := by
      cases numerP with
      | none =>
        obtain ⟨he3, hcz⟩ := new_sequence_none _ e3 hseq2
        subst he3
        exact ⟨by rw [hwc]; exact hcw.1, hpe2w hcw.2 _⟩
      | some nu =>
        obtain ⟨hpe3, _, hc3, _⟩ := new_sequence_some _ e3 nu hseq2
        refine ⟨?_, poolExt_trans (hpe2w hcw.2 _) hpe3⟩
        rw [hc3, hwc]
        omega
    rcases hseq3 : math2_new_sequence (updNode e3 mf (with_mixed_numer numerP))
      with ⟨e4, denomP⟩
    try simp only [hseq3]
    try dsimp only
    have hpe4 : poolExt e0 e4 ∧ (denomP.isSome →
        emptyCount e3 ≥ 1 + (emptyCount e4 - 0) ∨ True) := by
      exact ⟨by
        cases denomP with
        | none =>
          obtain ⟨he4, _⟩ := new_sequence_none _ e4 hseq3
          subst he4
          exact poolExt_updNode hcn.2 mf hmf0 _
        | some de =>
          obtain ⟨hpe4, _, _, _⟩ := new_sequence_some _ e4 de hseq3
          exact poolExt_trans (poolExt_updNode hcn.2 mf hmf0 _) hpe4, fun _ => Or.inr trivial⟩
    cases wholeP with
    | none =>
      cases numerP with
      | none =>
        cases denomP with
        | none => exact poolExt_updNode hpe4.1 mf hmf0 _
        | some de => exact poolExt_updNode hpe4.1 mf hmf0 _
      | some nu =>
        cases denomP with
        | none => exact poolExt_updNode hpe4.1 mf hmf0 _
        | some de => exact poolExt_updNode hpe4.1 mf hmf0 _
    | some w =>
      cases numerP with
      | none =>
        cases denomP with
        | none => exact poolExt_updNode hpe4.1 mf hmf0 _
        | some de => exact poolExt_updNode hpe4.1 mf hmf0 _
      | some nu =>
        cases denomP with
        | none => exact poolExt_updNode hpe4.1 mf hmf0 _
        | some de =>
          obtain ⟨_, _, _, hposd⟩ := new_sequence_some _ e4 de hseq3
          obtain ⟨hpe3, _, hc3, hpos3⟩ := new_sequence_some _ e3 nu hseq2
          obtain ⟨hpe2, _, hc2, hpos2⟩ := new_sequence_some e1 e2 w hseq1
          rw [hnc] at hposd
          rw [hc3, hwc, hc2, hc1] at hposd
          omega

theorem insert_abs_noop (e0 : math_expr2) (h : emptyCount e0 < 2) :
    poolExt e0 (math2_insert_abs e0) := by
  unfold math2_insert_abs
  rcases halloc : math2_alloc_node e0 .NODE_ABS with ⟨e1, p1⟩
  try simp only [halloc]
  try dsimp only
  cases p1 with
  | none =>
    obtain ⟨he1, _⟩ := alloc_none_emptyCount e0 .NODE_ABS e1 halloc
    rw [he1]
    exact poolExt_refl e0
  | some ab =>
    obtain ⟨hpe1, hx0⟩ := alloc_some_poolExt e0 _ e1 ab halloc
    have hpos := alloc_some_emptyCount_pos e0 _ e1 ab halloc
    have hc1 : emptyCount e1 = emptyCount e0 - 1 :=
      emptyCount_alloc_some e0 _ e1 ab (by decide) halloc
    rcases hseq1 : math2_new_sequence e1 with ⟨e2, contentP⟩
    try simp only [hseq1]
    try dsimp only
    cases contentP with
    | none =>
      obtain ⟨he2, _⟩ := new_sequence_none e1 e2 hseq1
      subst he2
      exact poolExt_updNode hpe1 ab hx0 _
    | some content =>
      obtain ⟨_, _, _, hposc⟩ := new_sequence_some e1 e2 content hseq1
      omega

theorem insert_paren_noop (e0 : math_expr2) (h : emptyCount e0 < 2) :
    poolExt e0 (math2_insert_paren e0) := by
  unfold math2_insert_paren
  rcases halloc : math2_alloc_node e0 .NODE_PAREN with ⟨e1, p1⟩
  try simp only [halloc]
  try dsimp only
  cases p1 with
  | none =>
    obtain ⟨he1, _⟩ := alloc_none_emptyCount e0 .NODE_PAREN e1 halloc
    rw [he1]
    exact poolExt_refl e0
  | some pr =>
    obtain ⟨hpe1, hx0⟩ := alloc_some_poolExt e0 _ e1 pr halloc
    have hpos := alloc_some_emptyCount_pos e0 _ e1 pr halloc
    have hc1 : emptyCount e1 = emptyCount e0 - 1 :=
      emptyCount_alloc_some e0 _ e1 pr (by decide) halloc
    rcases hseq1 : math2_new_sequence e1 with ⟨e2, contentP⟩
    try simp only [hseq1]
    try dsimp only
    cases contentP with
    | none =>
      obtain ⟨he2, _⟩ := new_sequence_none e1 e2 hseq1
      subst he2
      exact poolExt_updNode hpe1 pr hx0 _
    | some content =>
      obtain ⟨_, _, _, hposc⟩ := new_sequence_some e1 e2 content hseq1
      omega

theorem insert_function_noop (e0 : math_expr2) (name : String) (h : emptyCount e0 < 2) :
    poolExt e0 (math2_insert_function e0 name) := by
  unfold math2_insert_function
  rcases halloc : math2_alloc_node e0 .NODE_FUNCTION with ⟨e1, p1⟩
  try simp only [halloc]
  try dsimp only
  cases p1 with
  | none =>
    obtain ⟨he1, _⟩ := alloc_none_emptyCount e0 .NODE_FUNCTION e1 halloc
    rw [he1]
    exact poolExt_refl e0
  | some fn =>
    obtain ⟨hpe1, hx0⟩ := alloc_some_poolExt e0 _ e1 fn halloc
    have hpos := alloc_some_emptyCount_pos e0 _ e1 fn halloc
    have hc1 : emptyCount e1 = emptyCount e0 - 1 :=
      emptyCount_alloc_some e0 _ e1 fn (by decide) halloc
    have hc2 : emptyCount (updNode e1 fn (with_func_name (name.take 7))) = emptyCount e1 :=
      emptyCount_updNode_type_preserved e1 fn _ (with_func_name_type _ _)
    rcases hseq1 : math2_new_sequence (updNode e1 fn (with_func_name (name.take 7)))
      with ⟨e3, argP⟩
    try simp only [hseq1]
    try dsimp only
    cases argP with
    | none =>
      obtain ⟨he3, _⟩ := new_sequence_none _ e3 hseq1
      subst he3
      exact poolExt_updNode (poolExt_updNode hpe1 fn hx0 _) fn hx0 _
    | some arg =>
      obtain ⟨_, _, _, hposa⟩ := new_sequence_some _ e3 arg hseq1
      omega

/-- C4: every insertion operation (text, fraction, exponent, subscript, root,
nth-root, mixed fraction, abs, paren, function) silently no-ops when any pool
allocation it performs fails: the tree reachable from the root (every
sequence's contents and links, observed by readRoot) and the cursor are left
exactly as before the call.  An operation that allocates k nodes suffers an
allocation failure precisely when fewer than k pool slots are Empty; each
conjunct assumes the corresponding shortfall.  (Partially allocated nodes may
remain in otherwise-Empty slots — the leak the spec notes — but they are
never linked into the tree.) -/
theorem insert_ops_noop_on_exhaustion (fuel : Nat) (e : math_expr2) (t : MathTree)
    (st : text_type_t) (s nm : String) (n : Int)
    (hroot : readRoot fuel e = some t) :
    (emptyCount e < 1 → readRoot fuel (math2_insert_text e st s) = some t ∧
      (math2_insert_text e st s).cursor = e.cursor) ∧
    (emptyCount e < 3 → readRoot fuel (math2_insert_fraction e) = some t ∧
      (math2_insert_fraction e).cursor = e.cursor) ∧
    (emptyCount e < 3 → readRoot fuel (math2_insert_exponent e) = some t ∧
      (math2_insert_exponent e).cursor = e.cursor) ∧
    (emptyCount e < 3 → readRoot fuel (math2_insert_subscript e) = some t ∧
      (math2_insert_subscript e).cursor = e.cursor) ∧
    (emptyCount e < 2 → readRoot fuel (math2_insert_nthroot e n) = some t ∧
      (math2_insert_nthroot e n).cursor = e.cursor) ∧
    (emptyCount e < 2 → readRoot fuel (math2_insert_sqrt e) = some t ∧
      (math2_insert_sqrt e).cursor = e.cursor) ∧
    (emptyCount e < 3 → readRoot fuel (math2_insert_xthroot e) = some t ∧
      (math2_insert_xthroot e).cursor = e.cursor) ∧
    (emptyCount e < 4 → readRoot fuel (math2_insert_mixed_frac e) = some t ∧
      (math2_insert_mixed_frac e).cursor = e.cursor) ∧
    (emptyCount e < 2 → readRoot fuel (math2_insert_abs e) = some t ∧
      (math2_insert_abs e).cursor = e.cursor) ∧
    (emptyCount e < 2 → readRoot fuel (math2_insert_paren e) = some t ∧
      (math2_insert_paren e).cursor = e.cursor) ∧
    (emptyCount e < 2 → readRoot fuel (math2_insert_function e nm) = some t ∧
      (math2_insert_function e nm).cursor = e.cursor) := by
  refine ⟨fun h => ?_, fun h => ?_, fun h => ?_, fun h => ?_, fun h => ?_, fun h => ?_,
    fun h => ?_, fun h => ?_, fun h => ?_, fun h => ?_, fun h => ?_⟩
  · have hp := insert_text_noop e st s h
    exact ⟨poolExt_readRoot hp fuel t hroot, hp.2.2⟩
  · have hp := insert_fraction_noop e h
    exact ⟨poolExt_readRoot hp fuel t hroot, hp.2.2⟩
  · have hp := insert_exponent_noop e h
    exact ⟨poolExt_readRoot hp fuel t hroot, hp.2.2⟩
  · have hp := insert_subscript_noop e h
    exact ⟨poolExt_readRoot hp fuel t hroot, hp.2.2⟩
  · have hp := insert_nthroot_noop e n h
    exact ⟨poolExt_readRoot hp fuel t hroot, hp.2.2⟩
  · have hp := insert_nthroot_noop e 2 h
    exact ⟨poolExt_readRoot hp fuel t hroot, hp.2.2⟩
  · have hp := insert_xthroot_noop e h
    exact ⟨poolExt_readRoot hp fuel t hroot, hp.2.2⟩
  · have hp := insert_mixed_frac_noop e h
    exact ⟨poolExt_readRoot hp fuel t hroot, hp.2.2⟩
  · have hp := insert_abs_noop e h
    exact ⟨poolExt_readRoot hp fuel t hroot, hp.2.2⟩
  · have hp := insert_paren_noop e h
    exact ⟨poolExt_readRoot hp fuel t hroot, hp.2.2⟩
  · have hp := insert_function_noop e nm h
    exact ⟨poolExt_readRoot hp fuel t hroot, hp.2.2⟩

/-- Witness for C4 on a concrete exhausted pool: eFull has no Empty slot, its
root reads as the empty sequence, and inserting a text node or a fraction
leaves both the readable tree and the cursor unchanged. -/
theorem insert_ops_noop_on_exhaustion_witness :
    readRoot 2 eFull = some MathTree.nil ∧ emptyCount eFull < 1 ∧
    readRoot 2 (math2_insert_text eFull .TEXT_NUMBER "1") = some MathTree.nil ∧
    (math2_insert_text eFull .TEXT_NUMBER "1").cursor = eFull.cursor ∧
    readRoot 2 (math2_insert_fraction eFull) = some MathTree.nil ∧
    (math2_insert_fraction eFull).cursor = eFull.cursor := by
  have hthm := insert_ops_noop_on_exhaustion 2 eFull MathTree.nil .TEXT_NUMBER
    "1" "sin" 2 (by decide)
  exact ⟨by decide, by decide, (hthm.1 (by decide)).1, (hthm.1 (by decide)).2,
    (hthm.2.1 (by decide)).1, (hthm.2.1 (by decide)).2⟩


theorem alloc_succeeds (e : math_expr2) (ty : node_type_t) (h : 0 < emptyCount e) :
    ∃ e2 idx, math2_alloc_node e ty = (e2, some idx) := by
  cases hscan : scan_from e 0 MAX_NODES with
  | some idx => exact ⟨_, idx, math2_alloc_node_eq_some e ty idx hscan⟩
  | none =>
    exfalso
    obtain ⟨i, hi⟩ := Finset.card_pos.mp h
    rw [Finset.mem_filter, Finset.mem_range] at hi
    obtain ⟨j, hj, hcov⟩ := probe_coverage e.next_free i hi.1
    have hne := scan_from_none_spec MAX_NODES 0 e hscan j hj
    rw [Nat.zero_add] at hne
    rw [hcov] at hne
    exact hne hi.2

theorem new_sequence_succeeds (e : math_expr2) (h : 0 < emptyCount e) :
    ∃ e2 idx, math2_new_sequence e = (e2, some idx) := by
  obtain ⟨e2, idx, halloc⟩ := alloc_succeeds e .NODE_SEQUENCE h
  refine ⟨updNode e2 idx (fun n => { n with data := .seq none none }), idx, ?_⟩
  unfold math2_new_sequence
  rw [halloc]

theorem new_sequence_some_facts (e : math_expr2) (e2 : math_expr2) (idx : Nat)
    (h : math2_new_sequence e = (e2, some idx)) :
    (getNode e idx).type = .NODE_EMPTY ∧
    (∀ j, j ≠ idx → getNode e2 j = getNode e j) ∧
    getNode e2 idx = fresh_seq_node ∧
    e2.root = e.root ∧ e2.cursor = e.cursor ∧
    emptyCount e2 = emptyCount e - 1 := by
  unfold math2_new_sequence at h
  rcases halloc : math2_alloc_node e .NODE_SEQUENCE with ⟨e1, p⟩
  rw [halloc] at h
  cases p with
  | none => exact absurd (congrArg Prod.snd h) (by simp)
  | some s =>
    dsimp only at h
    rw [Prod.mk.injEq] at h
    obtain ⟨he2, hsome⟩ := h
    have hidx : s = idx := Option.some.inj hsome
    subst hidx
    subst he2
    obtain ⟨hempty, hlt, hother, hself, hroot, hcursor⟩ := alloc_some_facts e _ e1 s halloc
    have hcount := emptyCount_alloc_some e _ e1 s (by decide) halloc
    refine ⟨hempty, fun j hj => ?_, ?_, hroot, hcursor, ?_⟩
    · rw [getNode_updNode_ne _ _ _ _ hj]
      exact hother j hj
    · rw [getNode_updNode_self, hself]
      rfl
    · rw [emptyCount_updNode_type_preserved e1 s _ rfl]
      exact hcount

theorem getNode_ite_updNode (c : Prop) [Decidable c] (E : math_expr2) (i : Nat)
    (f : expr_node → expr_node) (j : Nat) (h : j ≠ i) :
    getNode (if c then updNode E i f else E) j = getNode E j := by
  split
  · exact getNode_updNode_ne _ _ _ _ h
  · rfl

theorem cursor_ite_updNode (c : Prop) [Decidable c] (E : math_expr2) (i : Nat)
    (f : expr_node → expr_node) : (if c then updNode E i f else E).cursor = E.cursor := by
  split <;> rfl

theorem seq_insert_after_spec (E : math_expr2) (s nd : Nat) (aP : Option Nat)
    (hstype : (getNode E s).type = .NODE_SEQUENCE) (hnds : nd ≠ s)
    (haP : ∀ aa, aP = some aa → aa ≠ nd ∧ aa ≠ s)
    (hfget : aP = none → ∀ f, seq_first (getNode E s) = some f → f ≠ nd)
    (hnx_nd : ∀ aa, aP = some aa → ∀ nx, (getNode E aa).next = some nx → nx ≠ nd) :
    ((getNode (seq_insert_after E (some s) aP (some nd)) nd).type = (getNode E nd).type ∧
     (getNode (seq_insert_after E (some s) aP (some nd)) nd).data = (getNode E nd).data ∧
     (getNode (seq_insert_after E (some s) aP (some nd)) nd).parent = some s) ∧
    (∀ j, j ≠ nd → j ≠ s →
      (∀ aa, aP = some aa → j ≠ aa ∧ ∀ nx, (getNode E aa).next = some nx → j ≠ nx) →
      (aP = none → ∀ f, seq_first (getNode E s) = some f → j ≠ f) →
      getNode (seq_insert_after E (some s) aP (some nd)) j = getNode E j) ∧
    (∀ aa, aP = some aa → (∀ nx, (getNode E aa).next = some nx → nx ≠ aa) →
      getNode (seq_insert_after E (some s) aP (some nd)) aa =
        { getNode E aa with next := some nd }) ∧
    (seq_insert_after E (some s) aP (some nd)).cursor = E.cursor := by
  unfold seq_insert_after
  dsimp only
  rw [if_neg (by rw [hstype]; simp)]
  cases aP with
  | none =>
    dsimp only
    have hf1 : seq_first (getNode (updNode E nd (fun n => { n with parent := some s })) s) =
        seq_first (getNode E s) := by
      rw [getNode_updNode_ne _ _ _ _ (Ne.symm hnds)]
    rw [hf1]
    cases hF : seq_first (getNode E s) with
    | none =>
      have hndv : ∀ c : Prop, ∀ inst : Decidable c,
          getNode (@ite _ c inst (updNode (updNode (updNode (updNode E nd
              (fun n => { n with parent := some s })) nd
              (fun n => { n with prev := none, next := (none : Option Nat) })) s
              (with_seq_first (some nd))) s (with_seq_last (some nd)))
            (updNode (updNode (updNode E nd (fun n => { n with parent := some s })) nd
              (fun n => { n with prev := none, next := (none : Option Nat) })) s
              (with_seq_first (some nd)))) nd =
          { getNode E nd with parent := some s, prev := none, next := none } := by
        intro c inst
        rw [getNode_ite_updNode _ _ _ _ _ hnds, getNode_updNode_ne _ _ _ _ hnds,
          getNode_updNode_self, getNode_updNode_self]
      refine ⟨⟨?_, ?_, ?_⟩, fun j hjnd hjs _ _ => ?_, fun aa haa _ => by simp at haa, ?_⟩
      · rw [hndv]
      · rw [hndv]
      · rw [hndv]
      · rw [getNode_ite_updNode _ _ _ _ _ hjs, getNode_updNode_ne _ _ _ _ hjs,
          getNode_updNode_ne _ _ _ _ hjnd, getNode_updNode_ne _ _ _ _ hjnd]
      · rw [cursor_ite_updNode]
        rfl
    | some f =>
      have hfnd : f ≠ nd := hfget rfl f hF
      have hndv : ∀ c : Prop, ∀ inst : Decidable c,
          getNode (@ite _ c inst (updNode (updNode (updNode (updNode (updNode E nd
              (fun n => { n with parent := some s })) nd
              (fun n => { n with prev := none, next := some f })) f
              (fun n => { n with prev := some nd })) s
              (with_seq_first (some nd))) s (with_seq_last (some nd)))
            (updNode (updNode (updNode (updNode E nd (fun n => { n with parent := some s })) nd
              (fun n => { n with prev := none, next := some f })) f
              (fun n => { n with prev := some nd })) s
              (with_seq_first (some nd)))) nd =
          { getNode E nd with parent := some s, prev := none, next := some f } := by
        intro c inst
        rw [getNode_ite_updNode _ _ _ _ _ hnds, getNode_updNode_ne _ _ _ _ hnds,
          getNode_updNode_ne _ _ _ _ hfnd.symm, getNode_updNode_self, getNode_updNode_self]
      refine ⟨⟨?_, ?_, ?_⟩, fun j hjnd hjs _ hjf => ?_, fun aa haa _ => by simp at haa, ?_⟩
      · rw [hndv]
      · rw [hndv]
      · rw [hndv]
      · rw [getNode_ite_updNode _ _ _ _ _ hjs, getNode_updNode_ne _ _ _ _ hjs,
          getNode_updNode_ne _ _ _ _ (hjf rfl f rfl), getNode_updNode_ne _ _ _ _ hjnd,
          getNode_updNode_ne _ _ _ _ hjnd]
      · rw [cursor_ite_updNode]
        rfl
  | some aa =>
    dsimp only
    obtain ⟨hand, has⟩ := haP aa rfl
    have hn1 : (getNode (updNode E nd (fun n => { n with parent := some s })) aa).next =
        (getNode E aa).next := by
      rw [getNode_updNode_ne _ _ _ _ hand]
    rw [hn1]
    cases hR : (getNode E aa).next with
    | none =>
      have hndv : ∀ c : Prop, ∀ inst : Decidable c,
          getNode (@ite _ c inst (updNode (updNode (updNode (updNode E nd
              (fun n => { n with parent := some s })) nd
              (fun n => { n with prev := some aa, next := (none : Option Nat) })) aa
              (fun n => { n with next := some nd })) s (with_seq_last (some nd)))
            (updNode (updNode (updNode E nd (fun n => { n with parent := some s })) nd
              (fun n => { n with prev := some aa, next := (none : Option Nat) })) aa
              (fun n => { n with next := some nd }))) nd =
          { getNode E nd with parent := some s, prev := some aa, next := none } := by
        intro c inst
        rw [getNode_ite_updNode _ _ _ _ _ hnds, getNode_updNode_ne _ _ _ _ hand.symm,
          getNode_updNode_self, getNode_updNode_self]
      refine ⟨⟨?_, ?_, ?_⟩, fun j hjnd hjs hjaa _ => ?_, fun aa2 haa2 hnx2 => ?_, ?_⟩
      · rw [hndv]
      · rw [hndv]
      · rw [hndv]
      · rw [getNode_ite_updNode _ _ _ _ _ hjs,
          getNode_updNode_ne _ _ _ _ (hjaa aa rfl).1, getNode_updNode_ne _ _ _ _ hjnd,
          getNode_updNode_ne _ _ _ _ hjnd]
      · have haa2eq : aa = aa2 := Option.some.inj haa2
        subst haa2eq
        rw [getNode_ite_updNode _ _ _ _ _ has, getNode_updNode_self,
          getNode_updNode_ne _ _ _ _ hand, getNode_updNode_ne _ _ _ _ hand]
      · rw [cursor_ite_updNode]
        rfl
    | some nx =>
      have hnxnd : nx ≠ nd := hnx_nd aa rfl nx hR
      have hndv : ∀ c : Prop, ∀ inst : Decidable c,
          getNode (@ite _ c inst (updNode (updNode (updNode (updNode (updNode E nd
              (fun n => { n with parent := some s })) nd
              (fun n => { n with prev := some aa, next := some nx })) nx
              (fun n => { n with prev := some nd })) aa
              (fun n => { n with next := some nd })) s (with_seq_last (some nd)))
            (updNode (updNode (updNode (updNode E nd (fun n => { n with parent := some s })) nd
              (fun n => { n with prev := some aa, next := some nx })) nx
              (fun n => { n with prev := some nd })) aa
              (fun n => { n with next := some nd }))) nd =
          { getNode E nd with parent := some s, prev := some aa, next := some nx } := by
        intro c inst
        rw [getNode_ite_updNode _ _ _ _ _ hnds, getNode_updNode_ne _ _ _ _ hand.symm,
          getNode_updNode_ne _ _ _ _ hnxnd.symm, getNode_updNode_self, getNode_updNode_self]
      refine ⟨⟨?_, ?_, ?_⟩, fun j hjnd hjs hjaa _ => ?_, fun aa2 haa2 hnx2 => ?_, ?_⟩
      · rw [hndv]
      · rw [hndv]
      · rw [hndv]
      · rw [getNode_ite_updNode _ _ _ _ _ hjs,
          getNode_updNode_ne _ _ _ _ (hjaa aa rfl).1,
          getNode_updNode_ne _ _ _ _ ((hjaa aa rfl).2 nx hR),
          getNode_updNode_ne _ _ _ _ hjnd, getNode_updNode_ne _ _ _ _ hjnd]
      · have haa2eq : aa = aa2 := Option.some.inj haa2
        subst haa2eq
        rw [getNode_ite_updNode _ _ _ _ _ has, getNode_updNode_self,
          getNode_updNode_ne _ _ _ _ (hnx2 nx hR).symm, getNode_updNode_ne _ _ _ _ hand,
          getNode_updNode_ne _ _ _ _ hand]
      · rw [cursor_ite_updNode]
        rfl

theorem with_seq_first_type (v : Option Nat) (n : expr_node) :
    (with_seq_first v n).type = n.type := by
  unfold with_seq_first
  split <;> rfl

theorem with_seq_last_type (v : Option Nat) (n : expr_node) :
    (with_seq_last v n).type = n.type := by
  unfold with_seq_last
  split <;> rfl

theorem seq_insert_after_front_empty (E : math_expr2) (b nd : Nat)
    (hstype : (getNode E b).type = .NODE_SEQUENCE)
    (hdata : (getNode E b).data = node_data.seq none none)
    (hnd : nd ≠ b) :
    seq_first (getNode (seq_insert_after E (some b) none (some nd)) b) = some nd ∧
    seq_last (getNode (seq_insert_after E (some b) none (some nd)) b) = some nd ∧
    (getNode (seq_insert_after E (some b) none (some nd)) b).type = .NODE_SEQUENCE ∧
    getNode (seq_insert_after E (some b) none (some nd)) nd =
      { getNode E nd with parent := some b, prev := none, next := none } ∧
    (∀ j, j ≠ nd → j ≠ b →
      getNode (seq_insert_after E (some b) none (some nd)) j = getNode E j) ∧
    (seq_insert_after E (some b) none (some nd)).cursor = E.cursor := by
  unfold seq_insert_after
  dsimp only
  rw [if_neg (by rw [hstype]; simp)]
  have hf1 : seq_first (getNode (updNode E nd (fun n => { n with parent := some b })) b) =
      none := by
    rw [getNode_updNode_ne _ _ _ _ (Ne.symm hnd)]
    unfold seq_first
    rw [hdata]
  rw [hf1]
  dsimp only
  have hb3 : getNode (updNode (updNode (updNode E nd (fun n => { n with parent := some b }))
      nd (fun n => { n with prev := none, next := (none : Option Nat) })) b
      (with_seq_first (some nd))) b =
      { getNode E b with data := node_data.seq (some nd) none } := by
    rw [getNode_updNode_self, getNode_updNode_ne _ _ _ _ (Ne.symm hnd),
      getNode_updNode_ne _ _ _ _ (Ne.symm hnd)]
    unfold with_seq_first
    rw [hdata]
  have hcond : seq_last (getNode (updNode (updNode (updNode E nd
      (fun n => { n with parent := some b })) nd
      (fun n => { n with prev := none, next := (none : Option Nat) })) b
      (with_seq_first (some nd))) b) = none := by
    rw [hb3]
    rfl
  rw [if_pos hcond]
  have hbF : getNode (updNode (updNode (updNode (updNode E nd
      (fun n => { n with parent := some b })) nd
      (fun n => { n with prev := none, next := (none : Option Nat) })) b
      (with_seq_first (some nd))) b (with_seq_last (some nd))) b =
      { getNode E b with data := node_data.seq (some nd) (some nd) } := by
    rw [getNode_updNode_self, hb3]
    rfl
  refine ⟨by rw [hbF]; rfl, by rw [hbF]; rfl, by rw [hbF]; exact hstype, ?_, fun j hjnd hjb => ?_, rfl⟩
  · rw [getNode_updNode_ne _ _ _ _ hnd, getNode_updNode_ne _ _ _ _ hnd,
      getNode_updNode_self, getNode_updNode_self]
  · rw [getNode_updNode_ne _ _ _ _ hjb, getNode_updNode_ne _ _ _ _ hjb,
      getNode_updNode_ne _ _ _ _ hjnd, getNode_updNode_ne _ _ _ _ hjnd]

theorem seq_remove_spec (E : math_expr2) (a s : Nat)
    (hpar : (getNode E a).parent = some s)
    (hstype : (getNode E s).type = .NODE_SEQUENCE)
    (has : a ≠ s)
    (hq : ∀ q, (getNode E a).prev = some q → q ≠ a ∧ q ≠ s)
    (hr : ∀ r, (getNode E a).next = some r → r ≠ a ∧ r ≠ s ∧
      ∀ q, (getNode E a).prev = some q → r ≠ q) :
    getNode (seq_remove E (some a)) a =
      { getNode E a with parent := none, next := none, prev := none } ∧
    (∀ j, j ≠ a → j ≠ s → (∀ q, (getNode E a).prev = some q → j ≠ q) →
      (∀ r, (getNode E a).next = some r → j ≠ r) →
      getNode (seq_remove E (some a)) j = getNode E j) ∧
    (∀ q, (getNode E a).prev = some q →
      getNode (seq_remove E (some a)) q = { getNode E q with next := (getNode E a).next }) ∧
    (getNode (seq_remove E (some a)) s).type = (getNode E s).type ∧
    (seq_remove E (some a)).cursor = E.cursor := by
  unfold seq_remove
  dsimp only
  rw [hpar]
  dsimp only
  rw [if_neg (by rw [hstype]; simp)]
  cases hP : (getNode E a).prev with
  | none =>
    cases hN : (getNode E a).next with
    | none =>
      dsimp only
      refine ⟨?_, fun j hja hjs _ _ => ?_, fun q hqq => by simp at hqq, ?_, rfl⟩
      · rw [getNode_updNode_self, getNode_updNode_ne _ _ _ _ has,
          getNode_updNode_ne _ _ _ _ has]
      · rw [getNode_updNode_ne _ _ _ _ hja, getNode_updNode_ne _ _ _ _ hjs,
          getNode_updNode_ne _ _ _ _ hjs]
      · rw [getNode_updNode_ne _ _ _ _ (Ne.symm has), getNode_updNode_self,
          getNode_updNode_self]
        rw [with_seq_last_type, with_seq_first_type]
    | some r =>
      obtain ⟨hra, hrs, _⟩ := hr r hN
      dsimp only
      refine ⟨?_, fun j hja hjs _ hjr => ?_, fun q hqq => by simp at hqq, ?_, rfl⟩
      · rw [getNode_updNode_self, getNode_updNode_ne _ _ _ _ hra.symm,
          getNode_updNode_ne _ _ _ _ has]
      · rw [getNode_updNode_ne _ _ _ _ hja, getNode_updNode_ne _ _ _ _ (hjr r rfl),
          getNode_updNode_ne _ _ _ _ hjs]
      · rw [getNode_updNode_ne _ _ _ _ (Ne.symm has), getNode_updNode_ne _ _ _ _ hrs.symm,
          getNode_updNode_self]
        rw [with_seq_first_type]
  | some q =>
    obtain ⟨hqa, hqs⟩ := hq q hP
    cases hN : (getNode E a).next with
    | none =>
      dsimp only
      refine ⟨?_, fun j hja hjs hjq _ => ?_, fun q2 hqq => ?_, ?_, rfl⟩
      · rw [getNode_updNode_self, getNode_updNode_ne _ _ _ _ has,
          getNode_updNode_ne _ _ _ _ hqa.symm]
      · rw [getNode_updNode_ne _ _ _ _ hja, getNode_updNode_ne _ _ _ _ hjs,
          getNode_updNode_ne _ _ _ _ (hjq q rfl)]
      · have hq2 : q = q2 := Option.some.inj hqq
        subst hq2
        rw [getNode_updNode_ne _ _ _ _ hqa, getNode_updNode_ne _ _ _ _ hqs,
          getNode_updNode_self]
      · rw [getNode_updNode_ne _ _ _ _ (Ne.symm has), getNode_updNode_self,
          getNode_updNode_ne _ _ _ _ (Ne.symm hqs)]
        rw [with_seq_last_type]
    | some r =>
      obtain ⟨hra, hrs, hrq0⟩ := hr r hN
      have hrq : r ≠ q := hrq0 q hP
      dsimp only
      refine ⟨?_, fun j hja hjs hjq hjr => ?_, fun q2 hqq => ?_, ?_, rfl⟩
      · rw [getNode_updNode_self, getNode_updNode_ne _ _ _ _ hra.symm,
          getNode_updNode_ne _ _ _ _ hqa.symm]
      · rw [getNode_updNode_ne _ _ _ _ hja, getNode_updNode_ne _ _ _ _ (hjr r rfl),
          getNode_updNode_ne _ _ _ _ (hjq q rfl)]
      · have hq2 : q = q2 := Option.some.inj hqq
        subst hq2
        rw [getNode_updNode_ne _ _ _ _ hqa, getNode_updNode_ne _ _ _ _ (Ne.symm hrq),
          getNode_updNode_self]
      · rw [getNode_updNode_ne _ _ _ _ (Ne.symm has), getNode_updNode_ne _ _ _ _ hrs.symm,
          getNode_updNode_ne _ _ _ _ (Ne.symm hqs)]

theorem getNode_clear_modes (e : math_expr2) (j : Nat) :
    getNode (math2_clear_modes e) j = getNode e j := rfl

theorem clear_modes_cursor (e : math_expr2) :
    (math2_clear_modes e).cursor = e.cursor := rfl

theorem getNode_set_cursor (e : math_expr2) (c : cursor_t) (j : Nat) :
    getNode { e with cursor := c } j = getNode e j := rfl

theorem set_cursor_cursor (e : math_expr2) (c : cursor_t) :
    ({ e with cursor := c } : math_expr2).cursor = c := rfl

theorem seq_first_with_seq_last (v : Option Nat) (n : expr_node) :
    seq_first (with_seq_last v n) = seq_first n := by
  unfold with_seq_last seq_first
  cases hd : n.data <;> simp [hd]

theorem seq_first_write_cases (v : Option Nat) (n : expr_node) :
    seq_first (with_seq_first v n) = v ∨
    (seq_first (with_seq_first v n) = none ∧ seq_first n = none) := by
  unfold with_seq_first seq_first
  cases hd : n.data <;> simp [hd]

theorem seq_remove_s_first_prev_none (E : math_expr2) (a s : Nat)
    (hpar : (getNode E a).parent = some s)
    (hstype : (getNode E s).type = node_type_t.NODE_SEQUENCE)
    (has : a ≠ s)
    (hpnone : (getNode E a).prev = none)
    (hr : ∀ r, (getNode E a).next = some r → r ≠ a ∧ r ≠ s) :
    seq_first (getNode (seq_remove E (some a)) s) = (getNode E a).next ∨
    seq_first (getNode (seq_remove E (some a)) s) = none := by
  unfold seq_remove
  dsimp only
  rw [hpar]
  dsimp only
  rw [if_neg (by rw [hstype]; simp)]
  rw [hpnone]
  dsimp only
  cases hN : (getNode E a).next with
  | none =>
    dsimp only
    rw [getNode_updNode_ne _ _ _ _ (Ne.symm has), getNode_updNode_self, getNode_updNode_self,
      seq_first_with_seq_last]
    rcases seq_first_write_cases none (getNode E s) with h | h
    · left
      exact h
    · right
      exact h.1
  | some r =>
    obtain ⟨hra, hrs⟩ := hr r hN
    dsimp only
    rw [getNode_updNode_ne _ _ _ _ (Ne.symm has), getNode_updNode_ne _ _ _ _ (Ne.symm hrs),
      getNode_updNode_self]
    rcases seq_first_write_cases (some r) (getNode E s) with h | h
    · left
      exact h
    · right
      exact h.1

/-- C3: math2_insert_exponent collects at most the single sibling immediately
before the cursor as base, and only when that sibling is a Text, Fraction,
Paren, Exponent, or Root node (exp_collectible), and always leaves the cursor
at the start of the power slot.  Universally: in any state with capacity for
three nodes, a well-formed cursor sequence, and well-linked cursor
neighbourhood, the inserted exponent node has a base and a power sequence,
the power is empty, the cursor is at the start of the power slot, and the
base holds exactly the previous sibling when it is collectible and nothing
otherwise (a non-collectible sibling stays in place, keeping its type, data,
parent and prev).  Concretely: typing 1, 2 then exponent moves only the digit
2 into the base, leaves 1 before the exponent node, serializes to the LaTeX
string 1\x7b2\x7d^\x7b\x7d, and parks the cursor in the power slot. -/
theorem math2_insert_exponent_collects_single (e0 : math_expr2) (s0 : Nat)
    (hcap : 3 ≤ emptyCount e0)
    (hseq0 : e0.cursor.sequence = some s0)
    (hsty : (getNode e0 s0).type = node_type_t.NODE_SEQUENCE)
    (hfirst : ∀ f, seq_first (getNode e0 s0) = some f →
      (getNode e0 f).type ≠ node_type_t.NODE_EMPTY)
    (hafter : ∀ a, e0.cursor.after = some a →
      (getNode e0 a).type ≠ node_type_t.NODE_EMPTY ∧
      (getNode e0 a).parent = some s0 ∧ a ≠ s0 ∧
      (∀ q, (getNode e0 a).prev = some q →
        (getNode e0 q).type ≠ node_type_t.NODE_EMPTY ∧ q ≠ a ∧ q ≠ s0) ∧
      (∀ r, (getNode e0 a).next = some r →
        (getNode e0 r).type ≠ node_type_t.NODE_EMPTY ∧ r ≠ a ∧ r ≠ s0 ∧
        ∀ q, (getNode e0 a).prev = some q → r ≠ q)) :
    (∃ x b p,
      (getNode (math2_insert_exponent e0) x).type = node_type_t.NODE_EXPONENT ∧
      (getNode (math2_insert_exponent e0) x).data = node_data.exp (some b) (some p) ∧
      (getNode (math2_insert_exponent e0) x).parent = some s0 ∧
      (getNode (math2_insert_exponent e0) p).type = node_type_t.NODE_SEQUENCE ∧
      seq_first (getNode (math2_insert_exponent e0) p) = none ∧
      (getNode (math2_insert_exponent e0) b).type = node_type_t.NODE_SEQUENCE ∧
      (math2_insert_exponent e0).cursor = { sequence := some p, after := none } ∧
      (e0.cursor.after = none →
        seq_first (getNode (math2_insert_exponent e0) b) = none) ∧
      (∀ a, e0.cursor.after = some a → exp_collectible (getNode e0 a).type = false →
        seq_first (getNode (math2_insert_exponent e0) b) = none ∧
        (getNode (math2_insert_exponent e0) a).type = (getNode e0 a).type ∧
        (getNode (math2_insert_exponent e0) a).data = (getNode e0 a).data ∧
        (getNode (math2_insert_exponent e0) a).parent = some s0 ∧
        (getNode (math2_insert_exponent e0) a).prev = (getNode e0 a).prev) ∧
      (∀ a, e0.cursor.after = some a → exp_collectible (getNode e0 a).type = true →
        seq_first (getNode (math2_insert_exponent e0) b) = some a ∧
        seq_last (getNode (math2_insert_exponent e0) b) = some a ∧
        (getNode (math2_insert_exponent e0) a).type = (getNode e0 a).type ∧
        (getNode (math2_insert_exponent e0) a).data = (getNode e0 a).data ∧
        (getNode (math2_insert_exponent e0) a).parent = some b ∧
        (getNode (math2_insert_exponent e0) a).prev = none ∧
        (getNode (math2_insert_exponent e0) a).next = none)) ∧
    (readRoot 10 eC3 = some (MathTree.cons (MathTree.text text_type_t.TEXT_NUMBER "1")
      (MathTree.cons (MathTree.exp (MathTree.cons (MathTree.text text_type_t.TEXT_NUMBER "2")
        MathTree.nil) MathTree.nil) MathTree.nil)) ∧
     (math2_to_latex 300 eC3).latex = "1\x7b2\x7d^\x7b\x7d" ∧
     (getNode eC3 3).data = node_data.exp (some 4) (some 5) ∧
     eC3.cursor = { sequence := some 5, after := none }) := by
  refine ⟨?_, by decide, by decide, by decide, by decide⟩
  obtain ⟨e1, x, halloc⟩ := alloc_succeeds e0 node_type_t.NODE_EXPONENT (by omega)
  obtain ⟨hx0, hxlt, h1o, h1x, h1root, h1cur⟩ := alloc_some_facts e0 _ e1 x halloc
  have hc1 : emptyCount e1 = emptyCount e0 - 1 :=
    emptyCount_alloc_some e0 _ e1 x (by decide) halloc
  obtain ⟨e2, b, hseq1⟩ := new_sequence_succeeds e1 (by rw [hc1]; omega)
  obtain ⟨h1bE, h2o, h2b, h2root, h2cur, hc2⟩ := new_sequence_some_facts e1 e2 b hseq1
  have hbx : b ≠ x := by
    intro h
    rw [h, h1x] at h1bE
    exact node_type_t.noConfusion h1bE
  have hb0 : (getNode e0 b).type = node_type_t.NODE_EMPTY := by
    rw [← h1o b hbx]
    exact h1bE
  have hc2b : emptyCount (updNode e2 x (with_exp_base (some b))) = emptyCount e2 :=
    emptyCount_updNode_type_preserved e2 x _ (with_exp_base_type _ _)
  obtain ⟨e3, p, hseq2⟩ := new_sequence_succeeds (updNode e2 x (with_exp_base (some b)))
    (by rw [hc2b, hc2, hc1]; omega)
  obtain ⟨h2bpE, h3o, h3p, h3root, h3cur, hc3c⟩ := new_sequence_some_facts _ e3 p hseq2
  have h2x : getNode e2 x = getNode e1 x := h2o x (Ne.symm hbx)
  have h2bx : getNode (updNode e2 x (with_exp_base (some b))) x =
      { type := node_type_t.NODE_EXPONENT, parent := none, next := none, prev := none,
        data := node_data.exp (some b) none } := by
    rw [getNode_updNode_self, h2x, h1x]
    rfl
  have hpx : p ≠ x := by
    intro h
    rw [h, h2bx] at h2bpE
    exact node_type_t.noConfusion h2bpE
  have hpb : p ≠ b := by
    intro h
    rw [h, getNode_updNode_ne _ _ _ _ hbx, h2b] at h2bpE
    exact node_type_t.noConfusion h2bpE
  have hp0 : (getNode e0 p).type = node_type_t.NODE_EMPTY := by
    rw [getNode_updNode_ne _ _ _ _ hpx, h2o p hpb, h1o p hpx] at h2bpE
    exact h2bpE
  have hpe1 : poolExt e0 e1 := (alloc_some_poolExt e0 _ e1 x halloc).1
  have hpe2 : poolExt e0 e2 := poolExt_trans hpe1 (new_sequence_some e1 e2 b hseq1).1
  have hpe2b : poolExt e0 (updNode e2 x (with_exp_base (some b))) :=
    poolExt_updNode hpe2 x hx0 _
  have hpe3 : poolExt e0 e3 := poolExt_trans hpe2b (new_sequence_some _ e3 p hseq2).1
  have hpe5 : poolExt e0
      (updNode (updNode (updNode e3 x (with_exp_power (some p))) b
        (fun n => { n with parent := some x })) p (fun n => { n with parent := some x })) :=
    poolExt_updNode (poolExt_updNode (poolExt_updNode hpe3 x hx0 _) b hb0 _) p hp0 _
  have hcur3 : e3.cursor = e0.cursor := by
    rw [h3cur, updNode_cursor, h2cur, h1cur]
  have h3x : getNode e3 x =
      { type := node_type_t.NODE_EXPONENT, parent := none, next := none, prev := none,
        data := node_data.exp (some b) none } := by
    rw [h3o x (Ne.symm hpx), h2bx]
  refine ⟨x, b, p, ?_⟩
  unfold math2_insert_exponent
  rw [halloc]
  dsimp only
  rw [hseq1]
  dsimp only
  rw [hseq2]
  dsimp only
  simp only [updNode_cursor, hcur3, hseq0]
  set E5 := updNode (updNode (updNode e3 x (with_exp_power (some p))) b
    (fun n => { n with parent := some x })) p (fun n => { n with parent := some x }) with hE5
  have h5cur : E5.cursor = e0.cursor := hpe5.2.2
  have h5f : ∀ j, (getNode e0 j).type ≠ node_type_t.NODE_EMPTY → getNode E5 j = getNode e0 j :=
    hpe5.1
  have h5x : getNode E5 x =
      { type := node_type_t.NODE_EXPONENT, parent := none, next := none, prev := none,
        data := node_data.exp (some b) (some p) } := by
    rw [hE5, getNode_updNode_ne _ _ _ _ (Ne.symm hpx), getNode_updNode_ne _ _ _ _ (Ne.symm hbx),
      getNode_updNode_self, h3x]
    rfl
  have h5b : getNode E5 b =
      { type := node_type_t.NODE_SEQUENCE, parent := some x, next := none, prev := none,
        data := node_data.seq none none } := by
    rw [hE5, getNode_updNode_ne _ _ _ _ (Ne.symm hpb), getNode_updNode_self,
      getNode_updNode_ne _ _ _ _ hbx, h3o b (Ne.symm hpb), getNode_updNode_ne _ _ _ _ hbx, h2b]
    rfl
  have h5p : getNode E5 p =
      { type := node_type_t.NODE_SEQUENCE, parent := some x, next := none, prev := none,
        data := node_data.seq none none } := by
    rw [hE5, getNode_updNode_self, getNode_updNode_ne _ _ _ _ hpb,
      getNode_updNode_ne _ _ _ _ hpx, h3p]
    rfl
  have hsLive : (getNode e0 s0).type ≠ node_type_t.NODE_EMPTY := by
    rw [hsty]
    exact fun h => node_type_t.noConfusion h
  have hxs0 : x ≠ s0 := fun h => hsLive (h ▸ hx0)
  have hbs0 : b ≠ s0 := fun h => hsLive (h ▸ hb0)
  have hps0 : p ≠ s0 := fun h => hsLive (h ▸ hp0)
  have hst5 : (getNode E5 s0).type = node_type_t.NODE_SEQUENCE := by
    rw [h5f s0 hsLive]
    exact hsty
  cases hA : e0.cursor.after with
  | none =>
    dsimp only
    simp only [h5cur, hseq0, hA]
    have hfg : (none : Option Nat) = none → ∀ f, seq_first (getNode E5 s0) = some f →
        (getNode e0 f).type ≠ node_type_t.NODE_EMPTY := by
      intro _ f hf
      rw [h5f s0 hsLive] at hf
      exact hfirst f hf
    obtain ⟨⟨hx1, hx2, hx3⟩, hfr, haav, hcu⟩ :=
      seq_insert_after_spec E5 s0 x none hst5 hxs0
        (fun aa haa => Option.noConfusion haa)
        (fun h f hf => fun he => (hfg h f hf) (he ▸ hx0))
        (fun aa haa => Option.noConfusion haa)
    have hfrb : getNode (seq_insert_after E5 (some s0) none (some x)) b = getNode E5 b :=
      hfr b hbx hbs0 (fun aa haa => Option.noConfusion haa)
        (fun h f hf => fun he => (hfg h f hf) (he ▸ hb0))
    have hfrp : getNode (seq_insert_after E5 (some s0) none (some x)) p = getNode E5 p :=
      hfr p hpx hps0 (fun aa haa => Option.noConfusion haa)
        (fun h f hf => fun he => (hfg h f hf) (he ▸ hp0))
    simp only [getNode_clear_modes, getNode_set_cursor, clear_modes_cursor, set_cursor_cursor]
    refine ⟨?_, ?_, hx3, ?_, ?_, ?_, trivial, ?_, ?_, ?_⟩
    · rw [hx1, h5x]
    · rw [hx2, h5x]
    · rw [hfrp, h5p]
    · rw [hfrp, h5p]
      rfl
    · rw [hfrb, h5b]
    · intro _
      rw [hfrb, h5b]
      rfl
    · exact fun a2 ha2 => Option.noConfusion ha2
    · exact fun a2 ha2 => Option.noConfusion ha2
  | some a =>
    obtain ⟨haL, hapar, has0, hq0, hr0⟩ := hafter a hA
    have hax : a ≠ x := fun h => haL (h ▸ hx0)
    have hab : a ≠ b := fun h => haL (h ▸ hb0)
    have hap : a ≠ p := fun h => haL (h ▸ hp0)
    have ha5 : getNode E5 a = getNode e0 a := h5f a haL
    dsimp only
    rw [ha5]
    cases hcoll : exp_collectible (getNode e0 a).type with
    | false =>
      rw [if_neg (by simp)]
      simp only [h5cur, hseq0, hA]
      have hfg5 : ∀ aa, (some a : Option Nat) = some aa → aa ≠ x ∧ aa ≠ s0 := by
        intro aa haa
        cases haa
        exact ⟨hax, has0⟩
      have hnx5 : ∀ aa, (some a : Option Nat) = some aa →
          ∀ nx, (getNode E5 aa).next = some nx →
          (getNode e0 nx).type ≠ node_type_t.NODE_EMPTY ∧ nx ≠ a := by
        intro aa haa nx hnx
        cases haa
        rw [ha5] at hnx
        exact ⟨(hr0 nx hnx).1, (hr0 nx hnx).2.1⟩
      obtain ⟨⟨hx1, hx2, hx3⟩, hfr, haav, hcu⟩ :=
        seq_insert_after_spec E5 s0 x (some a) hst5 hxs0 hfg5
          (fun hnone => Option.noConfusion hnone)
          (fun aa haa nx hnx => fun he => (hnx5 aa haa nx hnx).1 (he ▸ hx0))
      have haavA : getNode (seq_insert_after E5 (some s0) (some a) (some x)) a =
          { getNode e0 a with next := some x } := by
        rw [haav a rfl (fun nx hnx => (hnx5 a rfl nx hnx).2), ha5]
      have hfrb : getNode (seq_insert_after E5 (some s0) (some a) (some x)) b = getNode E5 b :=
        hfr b hbx hbs0
          (fun aa haa => ⟨by cases haa; exact Ne.symm hab,
            fun nx hnx he => (hnx5 aa haa nx hnx).1 (he ▸ hb0)⟩)
          (fun hnone => Option.noConfusion hnone)
      have hfrp : getNode (seq_insert_after E5 (some s0) (some a) (some x)) p = getNode E5 p :=
        hfr p hpx hps0
          (fun aa haa => ⟨by cases haa; exact Ne.symm hap,
            fun nx hnx he => (hnx5 aa haa nx hnx).1 (he ▸ hp0)⟩)
          (fun hnone => Option.noConfusion hnone)
      simp only [getNode_clear_modes, getNode_set_cursor, clear_modes_cursor, set_cursor_cursor]
      refine ⟨?_, ?_, hx3, ?_, ?_, ?_, trivial, ?_, ?_, ?_⟩
      · rw [hx1, h5x]
      · rw [hx2, h5x]
      · rw [hfrp, h5p]
      · rw [hfrp, h5p]
        rfl
      · rw [hfrb, h5b]
      · exact fun h => Option.noConfusion h
      · intro a2 ha2 hcol2
        cases ha2
        refine ⟨?_, ?_, ?_, ?_, ?_⟩
        · rw [hfrb, h5b]
          rfl
        · rw [haavA]
        · rw [haavA]
        · rw [haavA]
          exact hapar
        · rw [haavA]
      · intro a2 ha2 hcol2
        cases ha2
        rw [hcoll] at hcol2
        exact Bool.noConfusion hcol2
    | true =>
      rw [if_pos rfl]
      set EA : math_expr2 :=
        { E5 with cursor := { sequence := some s0, after := (getNode e0 a).prev } } with hEA
      have hEAn : ∀ j, getNode EA j = getNode E5 j := fun j => rfl
      have hEAc : EA.cursor = { sequence := some s0, after := (getNode e0 a).prev } := rfl
      have hprevEA : ∀ q, (getNode EA a).prev = some q →
          (getNode e0 q).type ≠ node_type_t.NODE_EMPTY ∧ q ≠ a ∧ q ≠ s0 := by
        intro q hq
        rw [hEAn a, ha5] at hq
        exact hq0 q hq
      have hnextEA : ∀ r, (getNode EA a).next = some r →
          (getNode e0 r).type ≠ node_type_t.NODE_EMPTY ∧ r ≠ a ∧ r ≠ s0 ∧
          ∀ q, (getNode e0 a).prev = some q → r ≠ q := by
        intro r hr
        rw [hEAn a, ha5] at hr
        exact hr0 r hr
      have hparEA : (getNode EA a).parent = some s0 := by
        rw [hEAn a, ha5]
        exact hapar
      have hstEA : (getNode EA s0).type = node_type_t.NODE_SEQUENCE := by
        rw [hEAn s0]
        exact hst5
      have hqEA : ∀ q, (getNode EA a).prev = some q → q ≠ a ∧ q ≠ s0 :=
        fun q hq => (hprevEA q hq).2
      have hrEA : ∀ r, (getNode EA a).next = some r → r ≠ a ∧ r ≠ s0 ∧
          ∀ q, (getNode EA a).prev = some q → r ≠ q := by
        intro r hr
        refine ⟨(hnextEA r hr).2.1, (hnextEA r hr).2.2.1, ?_⟩
        intro q hq
        rw [hEAn a, ha5] at hq
        exact (hnextEA r hr).2.2.2 q hq
      obtain ⟨hrm1, hrmf, hrmq, hrms, hrmc⟩ :=
        seq_remove_spec EA a s0 hparEA hstEA has0 hqEA hrEA
      have hrmb : getNode (seq_remove EA (some a)) b =
          { type := node_type_t.NODE_SEQUENCE, parent := some x, next := none, prev := none,
            data := node_data.seq none none } := by
        rw [hrmf b (Ne.symm hab) hbs0 (fun q hq h => (hprevEA q hq).1 (h ▸ hb0))
          (fun r hr h => (hnextEA r hr).1 (h ▸ hb0)), hEAn b, h5b]
      obtain ⟨hfF, hfL, hfT, hfA, hfFr, hfC⟩ :=
        seq_insert_after_front_empty (seq_remove EA (some a)) b a
          (by rw [hrmb]) (by rw [hrmb]) hab
      set E6 := seq_insert_after (seq_remove EA (some a)) (some b) none (some a) with hE6
      simp only [hfC, hrmc, hEAc]
      have h6s0 : getNode E6 s0 = getNode (seq_remove EA (some a)) s0 :=
        hfFr s0 (Ne.symm has0) (Ne.symm hbs0)
      have hst6 : (getNode E6 s0).type = node_type_t.NODE_SEQUENCE := by
        rw [h6s0, hrms, hEAn s0]
        exact hst5
      have haP7 : ∀ aa, (getNode e0 a).prev = some aa → aa ≠ x ∧ aa ≠ s0 := by
        intro aa haa
        exact ⟨fun h => (hq0 aa haa).1 (h ▸ hx0), (hq0 aa haa).2.2⟩
      have hf6 : (getNode e0 a).prev = none → ∀ f, seq_first (getNode E6 s0) = some f →
          (getNode e0 f).type ≠ node_type_t.NODE_EMPTY ∧ f ≠ a := by
        intro hnone f hf
        rw [h6s0] at hf
        have hpnoneEA : (getNode EA a).prev = none := by
          rw [hEAn a, ha5]
          exact hnone
        rcases seq_remove_s_first_prev_none EA a s0 hparEA hstEA has0 hpnoneEA
          (fun r hr => ⟨(hnextEA r hr).2.1, (hnextEA r hr).2.2.1⟩) with hd | hd
        · rw [hd, hEAn a, ha5] at hf
          exact ⟨(hr0 f hf).1, (hr0 f hf).2.1⟩
        · rw [hd] at hf
          exact Option.noConfusion hf
      have h6next : ∀ aa, (getNode e0 a).prev = some aa →
          ∀ nx, (getNode E6 aa).next = some nx →
          (getNode e0 nx).type ≠ node_type_t.NODE_EMPTY ∧ nx ≠ a := by
        intro aa haa nx hnx
        have haaEA : (getNode EA a).prev = some aa := by
          rw [hEAn a, ha5]
          exact haa
        have h6aa : getNode E6 aa = getNode (seq_remove EA (some a)) aa :=
          hfFr aa (hq0 aa haa).2.1 (fun h => (hq0 aa haa).1 (h ▸ hb0))
        rw [h6aa, hrmq aa haaEA] at hnx
        have hnx2 : (getNode EA a).next = some nx := hnx
        rw [hEAn a, ha5] at hnx2
        exact ⟨(hr0 nx hnx2).1, (hr0 nx hnx2).2.1⟩
      obtain ⟨⟨hx1, hx2, hx3⟩, hfr7, haav7, hcu7⟩ :=
        seq_insert_after_spec E6 s0 x ((getNode e0 a).prev) hst6 hxs0 haP7
          (fun hnone f hf => fun he => (hf6 hnone f hf).1 (he ▸ hx0))
          (fun aa haa nx hnx => fun he => (h6next aa haa nx hnx).1 (he ▸ hx0))
      have h6x : getNode E6 x = getNode E5 x := by
        rw [hfFr x (Ne.symm hax) (Ne.symm hbx),
          hrmf x (Ne.symm hax) hxs0 (fun q hq h => (hprevEA q hq).1 (h ▸ hx0))
            (fun r hr h => (hnextEA r hr).1 (h ▸ hx0)), hEAn x]
      have h6p : getNode E6 p = getNode E5 p := by
        rw [hfFr p (Ne.symm hap) hpb,
          hrmf p (Ne.symm hap) hps0 (fun q hq h => (hprevEA q hq).1 (h ▸ hp0))
            (fun r hr h => (hnextEA r hr).1 (h ▸ hp0)), hEAn p]
      have hfrp7 : getNode (seq_insert_after E6 (some s0) ((getNode e0 a).prev) (some x)) p =
          getNode E6 p :=
        hfr7 p hpx hps0
          (fun aa haa => ⟨fun h => (hq0 aa haa).1 (h ▸ hp0),
            fun nx hnx he => (h6next aa haa nx hnx).1 (he ▸ hp0)⟩)
          (fun hnone f hf => fun he => (hf6 hnone f hf).1 (he ▸ hp0))
      have hfrb7 : getNode (seq_insert_after E6 (some s0) ((getNode e0 a).prev) (some x)) b =
          getNode E6 b :=
        hfr7 b hbx hbs0
          (fun aa haa => ⟨fun h => (hq0 aa haa).1 (h ▸ hb0),
            fun nx hnx he => (h6next aa haa nx hnx).1 (he ▸ hb0)⟩)
          (fun hnone f hf => fun he => (hf6 hnone f hf).1 (he ▸ hb0))
      have hfra7 : getNode (seq_insert_after E6 (some s0) ((getNode e0 a).prev) (some x)) a =
          getNode E6 a :=
        hfr7 a hax has0
          (fun aa haa => ⟨Ne.symm (hq0 aa haa).2.1,
            fun nx hnx he => (h6next aa haa nx hnx).2 he.symm⟩)
          (fun hnone f hf => fun he => (hf6 hnone f hf).2 he.symm)
      have hfA2 : getNode E6 a = { getNode (seq_remove EA (some a)) a with parent := some b, prev := none, next := none } := hfA
      rw [hrm1, hEAn a, ha5] at hfA2
      simp only [getNode_clear_modes, getNode_set_cursor, clear_modes_cursor, set_cursor_cursor]
      refine ⟨?_, ?_, hx3, ?_, ?_, ?_, trivial, ?_, ?_, ?_⟩
      · rw [hx1, h6x, h5x]
      · rw [hx2, h6x, h5x]
      · rw [hfrp7, h6p, h5p]
      · rw [hfrp7, h6p, h5p]
        rfl
      · rw [hfrb7]
        exact hfT
      · exact fun h => Option.noConfusion h
      · intro a2 ha2 hcol2
        cases ha2
        rw [hcoll] at hcol2
        exact Bool.noConfusion hcol2
      · intro a2 ha2 hcol2
        cases ha2
        refine ⟨?_, ?_, ?_, ?_, ?_, ?_, ?_⟩
        · rw [hfrb7]
          exact hfF
        · rw [hfrb7]
          exact hfL
        · rw [hfra7, hfA2]
        · rw [hfra7, hfA2]
        · rw [hfra7, hfA2]
        · rw [hfra7, hfA2]
        · rw [hfra7, hfA2]

/-- Witness for C3: the hypotheses of the universal statement hold for the
concrete state reached by typing the digits 1 and 2 from a fresh editor, and
the conclusion produces the exponent node with its base and power and the
cursor in the power slot. -/
theorem math2_insert_exponent_collects_single_witness :
    ∃ x b p,
      (getNode (math2_insert_exponent (insert_digits math2_init ["1", "2"])) x).type =
        node_type_t.NODE_EXPONENT ∧
      (getNode (math2_insert_exponent (insert_digits math2_init ["1", "2"])) x).data =
        node_data.exp (some b) (some p) ∧
      (math2_insert_exponent (insert_digits math2_init ["1", "2"])).cursor =
        { sequence := some p, after := none } := by
  obtain ⟨⟨x, b, p, h1, h2, h3, h4, h5, h6, h7, h8, h9, h10⟩, hconc⟩ :=
    math2_insert_exponent_collects_single (insert_digits math2_init ["1", "2"]) 0
      (by decide) (by decide) (by decide)
      (by
        intro f hf
        rw [show seq_first (getNode (insert_digits math2_init ["1", "2"]) 0) = some 1 from
          by decide] at hf
        cases hf
        decide)
      (by
        intro a ha
        rw [show (insert_digits math2_init ["1", "2"]).cursor.after = some 2 from
          by decide] at ha
        cases ha
        refine ⟨by decide, by decide, by decide, ?_, ?_⟩
        · intro q hq
          rw [show (getNode (insert_digits math2_init ["1", "2"]) 2).prev = some 1 from
            by decide] at hq
          cases hq
          exact ⟨by decide, by decide, by decide⟩
        · intro r hr
          rw [show (getNode (insert_digits math2_init ["1", "2"]) 2).next = none from
            by decide] at hr
          exact Option.noConfusion hr)
  exact ⟨x, b, p, h1, h2, h7⟩
